import Mathlib

/-!
Verification of the Orders & Inventory core
(`src/Order_Inventory_Assignment/app/{models,crud,webhooks}.py` and the
signature helper of `app/main.py`), shallowly embedded in Lean 4.

Python dictionaries keyed by id are modelled as lists of records carrying
their id, with first-match lookup, first-match in-place replacement and
first-match deletion — exactly the dict behaviour when keys are unique,
which the id counters guarantee.  Raised `HTTPException`s are modelled by
`Except HTTPException`; a raised exception leaves the store untouched, so
the error branch carries no state (every mutation in the source happens
after all checks of its operation have passed).
-/

namespace OrdersInventory

/-- Embeds `app/models.py` `OrderStatus(str, Enum)`. -/
inductive OrderStatus where
  | PENDING
  | PAID
  | SHIPPED
  | CANCELED
deriving DecidableEq, Repr

/-- The `.value` string of the enum member, used in detail messages. -/
def OrderStatus.value : OrderStatus → String
  | .PENDING => "PENDING"
  | .PAID => "PAID"
  | .SHIPPED => "SHIPPED"
  | .CANCELED => "CANCELED"

/-- Embeds `app/models.py` `Product`.  `price: float` never enters any arithmetic or
comparison in the embedded operations, so it is carried as `Rat`. -/
structure Product where
  id : Int
  sku : String
  name : String
  price : Rat
  stock : Int
deriving DecidableEq, Repr

/-- Embeds `app/models.py` `Order` (`created_at: datetime` as an abstract tick). -/
structure Order where
  id : Int
  product_id : Int
  quantity : Int
  status : OrderStatus
  created_at : Nat
deriving DecidableEq, Repr

/-- Embeds `app/models.py` `ProductCreate`. -/
structure ProductCreate where
  sku : String
  name : String
  price : Rat
  stock : Int
deriving DecidableEq, Repr

/-- Embeds `app/models.py` `ProductUpdate`; `none` is an absent (unset) field. -/
structure ProductUpdate where
  sku : Option String := none
  name : Option String := none
  price : Option Rat := none
  stock : Option Int := none
deriving DecidableEq, Repr

/-- Embeds `app/models.py` `OrderCreate`; `status` defaults to `PENDING`. -/
structure OrderCreate where
  product_id : Int
  quantity : Int
  status : OrderStatus := .PENDING
deriving DecidableEq, Repr

/-- Embeds `app/models.py` `OrderUpdate`; `none` is an absent `status` field. -/
structure OrderUpdate where
  status : Option OrderStatus := none
deriving DecidableEq, Repr

/-- Embeds `fastapi.HTTPException` as raised by the source: a status code and a
detail message. -/
structure HTTPException where
  status_code : Nat
  detail : String
deriving DecidableEq, Repr

/-- Embeds `app/database.py` `InMemoryStore` (plus a tick supplying
`datetime.utcnow()` for `created_at`). -/
structure MemoryStore where
  products : List Product
  orders : List Order
  product_counter : Int
  order_counter : Int
  clock : Nat
deriving DecidableEq, Repr

/-- Embeds `InMemoryStore.__init__`: empty stores, both counters at 1. -/
def MemoryStore.init : MemoryStore :=
  { products := [], orders := [], product_counter := 1, order_counter := 1,
    clock := 0 }

/-- Replace the first element whose key is `k` by its image under `f`
(mutating the object a `dict` lookup returned, in place). -/
def updateById (key : α → Int) (k : Int) (f : α → α) : List α → List α
  | [] => []
  | x :: xs => if key x = k then f x :: xs else x :: updateById key k f xs

/-- Remove the first element whose key is `k` (`del d[k]`). -/
def eraseById (key : α → Int) (k : Int) : List α → List α
  | [] => []
  | x :: xs => if key x = k then xs else x :: eraseById key k xs

/-- Dict assignment `d[key v] = v`: replace the binding if the key is present, else append. -/
def dictInsert (key : α → Int) (v : α) (l : List α) : List α :=
  if (l.find? (fun x => key x == key v)).isSome then
    updateById key (key v) (fun _ => v) l
  else
    l ++ [v]

/-- Truthiness of an optional string (`if product_data.sku:`). -/
def strTruthy : Option String → Bool
  | none => false
  | some s => s ≠ ""

namespace ProductCRUD

/-- Embeds `ProductCRUD.create_product`. -/
def create_product (product_data : ProductCreate) (s : MemoryStore) :
    Except HTTPException (Product × MemoryStore) :=
  if s.products.any (fun p => p.sku == product_data.sku) then
    .error ⟨409, "Product with this SKU already exists"⟩
  else
    let product : Product :=
      { id := s.product_counter, sku := product_data.sku,
        name := product_data.name, price := product_data.price,
        stock := product_data.stock }
    .ok (product,
      { s with products := dictInsert Product.id product s.products,
               product_counter := s.product_counter + 1 })

/-- Embeds `ProductCRUD.get_product`. -/
def get_product (product_id : Int) (s : MemoryStore) :
    Except HTTPException Product :=
  match s.products.find? (fun p => p.id == product_id) with
  | some product => .ok product
  | none => .error ⟨404, "Product not found"⟩

/-- The `setattr` loop of `ProductCRUD.update_product`: apply exactly the
provided fields. -/
def applyProductUpdate (product_data : ProductUpdate) (p : Product) : Product :=
  { p with sku := product_data.sku.getD p.sku,
           name := product_data.name.getD p.name,
           price := product_data.price.getD p.price,
           stock := product_data.stock.getD p.stock }

/-- Embeds `ProductCRUD.update_product`. -/
def update_product (product_id : Int) (product_data : ProductUpdate)
    (s : MemoryStore) : Except HTTPException (Product × MemoryStore) :=
  match get_product product_id s with
  | .error e => .error e
  | .ok product =>
    if strTruthy product_data.sku && product_data.sku != some product.sku
        && s.products.any (fun p => some p.sku == product_data.sku) then
      .error ⟨409, "Product with this SKU already exists"⟩
    else
      let product' := applyProductUpdate product_data product
      .ok (product',
        { s with products :=
            updateById Product.id product_id (fun _ => product') s.products })

/-- Embeds `ProductCRUD.delete_product`. -/
def delete_product (product_id : Int) (s : MemoryStore) :
    Except HTTPException (Bool × MemoryStore) :=
  if (s.products.find? (fun p => p.id == product_id)).isNone then
    .error ⟨404, "Product not found"⟩
  else if s.orders.any (fun o => o.product_id == product_id
      && (o.status == .PENDING || o.status == .PAID)) then
    .error ⟨400, "Cannot delete product with pending or paid orders"⟩
  else
    .ok (true, { s with products := eraseById Product.id product_id s.products })

end ProductCRUD

namespace OrderCRUD

/-- Embeds `OrderCRUD.create_order`: check stock, then atomically decrement stock
and insert the new order. -/
def create_order (order_data : OrderCreate) (s : MemoryStore) :
    Except HTTPException (Order × MemoryStore) :=
  match ProductCRUD.get_product order_data.product_id s with
  | .error e => .error e
  | .ok product =>
    if product.stock < order_data.quantity then
      .error ⟨409, "Insufficient stock. Available: " ++ toString product.stock
        ++ ", Requested: " ++ toString order_data.quantity⟩
    else
      let order : Order :=
        { id := s.order_counter, product_id := order_data.product_id,
          quantity := order_data.quantity, status := order_data.status,
          created_at := s.clock }
      .ok (order,
        { s with
          products := updateById Product.id order_data.product_id
            (fun p => { p with stock := p.stock - order_data.quantity })
            s.products,
          orders := dictInsert Order.id order s.orders,
          order_counter := s.order_counter + 1,
          clock := s.clock + 1 })

/-- Embeds `OrderCRUD.get_order`. -/
def get_order (order_id : Int) (s : MemoryStore) : Except HTTPException Order :=
  match s.orders.find? (fun o => o.id == order_id) with
  | some order => .ok order
  | none => .error ⟨404, "Order not found"⟩

/-- The `valid_transitions` table of `OrderCRUD.update_order`. -/
def validTransitions : OrderStatus → List OrderStatus
  | .PENDING => [.PAID, .CANCELED]
  | .PAID => [.SHIPPED, .CANCELED]
  | .SHIPPED => []
  | .CANCELED => []

/-- Whether the requested status is among the valid targets. -/
def validTransition (a b : OrderStatus) : Bool :=
  (validTransitions a).contains b

/-- Embeds `OrderCRUD.update_order`: validate the transition when a status is
provided, then apply the provided fields. -/
def update_order (order_id : Int) (order_data : OrderUpdate) (s : MemoryStore) :
    Except HTTPException (Order × MemoryStore) :=
  match get_order order_id s with
  | .error e => .error e
  | .ok order =>
    match order_data.status with
    | some ns =>
      if validTransition order.status ns then
        let order' := { order with status := ns }
        .ok (order',
          { s with orders :=
              updateById Order.id order_id (fun _ => order') s.orders })
      else
        .error ⟨400, "Invalid status transition from " ++ order.status.value
          ++ " to " ++ ns.value⟩
    | none => .ok (order, s)

/-- Embeds `OrderCRUD.cancel_order`: reject terminal orders, restore stock (the
order is never `SHIPPED` here), set the status to `CANCELED`. -/
def cancel_order (order_id : Int) (s : MemoryStore) :
    Except HTTPException (Bool × MemoryStore) :=
  match get_order order_id s with
  | .error e => .error e
  | .ok order =>
    if order.status == .SHIPPED || order.status == .CANCELED then
      .error ⟨400, "Cannot cancel order with status: " ++ order.status.value⟩
    else if order.status != .SHIPPED then
      match ProductCRUD.get_product order.product_id s with
      | .error e => .error e
      | .ok _ =>
        let restock := fun (p : Product) =>
          { p with stock := p.stock + order.quantity }
        let s1 := { s with
          products := updateById Product.id order.product_id restock s.products }
        let setCanceled := fun (o : Order) => { o with status := .CANCELED }
        .ok (true, { s1 with
          orders := updateById Order.id order_id setCanceled s1.orders })
    else
      let setCanceled := fun (o : Order) => { o with status := .CANCELED }
      .ok (true, { s with
        orders := updateById Order.id order_id setCanceled s.orders })

/-- Embeds `OrderCRUD.delete_order`. -/
def delete_order (order_id : Int) (s : MemoryStore) :
    Except HTTPException (Bool × MemoryStore) :=
  match get_order order_id s with
  | .error e => .error e
  | .ok order =>
    if order.status != .CANCELED then
      .error ⟨400,
        "Can only delete canceled orders. Use cancel operation instead."⟩
    else
      .ok (true, { s with orders := eraseById Order.id order_id s.orders })

end OrderCRUD

/-! ### SHA-256, HMAC, hex and base64 (the `hashlib`/`hmac`/`base64` calls
of `app/webhooks.py` and `app/main.py`), on byte lists (`Nat` values < 256,
with explicit `% 2 ^ 32` where 32-bit overflow matters). -/

namespace Crypto

/-- Rotation to the right on 32 bits. -/
def rotr (n x : Nat) : Nat := ((x >>> n) ||| (x <<< (32 - n))) % 4294967296

/-- SHA-256 `Ch`: `(x ∧ y) ⊕ (¬x ∧ z)` on 32 bits. -/
def ch (x y z : Nat) : Nat := (x &&& y) ^^^ ((x ^^^ 4294967295) &&& z)

/-- SHA-256 `Maj`. -/
def maj (x y z : Nat) : Nat := (x &&& y) ^^^ (x &&& z) ^^^ (y &&& z)

/-- SHA-256 `Σ0`. -/
def bigSigma0 (x : Nat) : Nat := rotr 2 x ^^^ rotr 13 x ^^^ rotr 22 x

/-- SHA-256 `Σ1`. -/
def bigSigma1 (x : Nat) : Nat := rotr 6 x ^^^ rotr 11 x ^^^ rotr 25 x

/-- SHA-256 `σ0`. -/
def smallSigma0 (x : Nat) : Nat := rotr 7 x ^^^ rotr 18 x ^^^ (x >>> 3)

/-- SHA-256 `σ1`. -/
def smallSigma1 (x : Nat) : Nat := rotr 17 x ^^^ rotr 19 x ^^^ (x >>> 10)

/-- The 64 SHA-256 round constants. -/
def K : List Nat :=
  [1116352408, 1899447441, 3049323471, 3921009573, 961987163,
   1508970993, 2453635748, 2870763221, 3624381080, 310598401,
   607225278, 1426881987, 1925078388, 2162078206, 2614888103,
   3248222580, 3835390401, 4022224774, 264347078, 604807628,
   770255983, 1249150122, 1555081692, 1996064986, 2554220882,
   2821834349, 2952996808, 3210313671, 3336571891, 3584528711,
   113926993, 338241895, 666307205, 773529912, 1294757372,
   1396182291, 1695183700, 1986661051, 2177026350, 2456956037,
   2730485921, 2820302411, 3259730800, 3345764771, 3516065817,
   3600352804, 4094571909, 275423344, 430227734, 506948616,
   659060556, 883997877, 958139571, 1322822218, 1537002063,
   1747873779, 1955562222, 2024104815, 2227730452, 2361852424,
   2428436474, 2756734187, 3204031479, 3329325298]

/-- The SHA-256 initial hash value. -/
def H0 : List Nat :=
  [1779033703, 3144134277, 1013904242, 2773480762,
   1359893119, 2600822924, 528734635, 1541459225]

/-- Big-endian bytes: `n` bytes of `x`. -/
def bytesBE (n x : Nat) : List Nat :=
  (List.range n).map (fun i => (x >>> (8 * (n - 1 - i))) % 256)

/-- SHA-256 message padding: `0x80`, zeros to 56 mod 64, 64-bit bit length. -/
def pad (msg : List Nat) : List Nat :=
  msg ++ [0x80] ++ List.replicate ((119 - msg.length % 64) % 64) 0
    ++ bytesBE 8 (8 * msg.length)

/-- Big-endian 32-bit words from bytes. -/
def toWords : List Nat → List Nat
  | a :: b :: c :: d :: rest =>
    (a * 16777216 + b * 65536 + c * 256 + d) :: toWords rest
  | _ => []

/-- Split a word list into 16-word blocks (structural recursion on a fuel
bound so that the kernel can evaluate it). -/
def blocksOfAux : Nat → List Nat → List (List Nat)
  | 0, _ => []
  | _, [] => []
  | fuel + 1, w :: ws => ((w :: ws).take 16) :: blocksOfAux fuel ((w :: ws).drop 16)

/-- Split a word list into 16-word blocks. -/
def blocksOf (l : List Nat) : List (List Nat) := blocksOfAux l.length l

/-- Extend a 16-word block to the 64-word message schedule. -/
def extendSchedule (w : List Nat) : List Nat :=
  (List.range 48).foldl
    (fun acc _ =>
      let n := acc.length
      acc ++ [(smallSigma1 (acc.getD (n - 2) 0) + acc.getD (n - 7) 0
        + smallSigma0 (acc.getD (n - 15) 0) + acc.getD (n - 16) 0) % 4294967296])
    w

/-- One SHA-256 compression round. -/
def round (w : List Nat) (st : List Nat) (i : Nat) : List Nat :=
  match st with
  | [a, b, c, d, e, f, g, h] =>
    let t1 := (h + bigSigma1 e + ch e f g + K.getD i 0 + w.getD i 0) % 4294967296
    let t2 := (bigSigma0 a + maj a b c) % 4294967296
    [(t1 + t2) % 4294967296, a, b, c, (d + t1) % 4294967296, e, f, g]
  | st => st

/-- Compress one 16-word block into the running hash. -/
def compressBlock (h : List Nat) (block : List Nat) : List Nat :=
  let w := extendSchedule block
  let f := (List.range 64).foldl (round w) h
  (h.zip f).map (fun p => (p.1 + p.2) % 4294967296)

/-- SHA-256 of a byte list, as its 32 digest bytes. -/
def sha256 (msg : List Nat) : List Nat :=
  (((blocksOf (toWords (pad msg))).foldl compressBlock H0).map (bytesBE 4)).flatten

/-- Embeds `hmac.new(key, msg, hashlib.sha256).digest()` (RFC 2104, block size 64). -/
def hmacSha256 (key msg : List Nat) : List Nat :=
  let k0 := if key.length > 64 then sha256 key else key
  let k := k0 ++ List.replicate (64 - k0.length) 0
  sha256 ((k.map (· ^^^ 0x5c)) ++ sha256 ((k.map (· ^^^ 0x36)) ++ msg))

/-- The `n`-th lowercase hex digit character (0-9, a-f). -/
def hexChar (n : Nat) : Char := Nat.digitChar n

/-- Two hex characters of one byte. -/
def byteHex (b : Nat) : List Char := [hexChar (b / 16 % 16), hexChar (b % 16)]

/-- Lowercase `.hexdigest()`-style hex string of a byte list. -/
def hexDigest (bs : List Nat) : String := ⟨(bs.map byteHex).flatten⟩

/-- The base64 alphabet. -/
def b64Digits : List Char :=
  "ABCDEFGHIJKLMNOPQRSTUVWXYZabcdefghijklmnopqrstuvwxyz0123456789+/".data

/-- The `n`-th base64 character. -/
def b64Char (n : Nat) : Char := b64Digits.getD n 'A'

/-- Embeds `base64.b64encode`, as a character list. -/
def b64Chars : List Nat → List Char
  | [] => []
  | [a] => [b64Char (a >>> 2), b64Char ((a % 4) <<< 4), '=', '=']
  | [a, b] =>
    [b64Char (a >>> 2), b64Char (((a % 4) <<< 4) ||| (b >>> 4)),
     b64Char ((b % 16) <<< 2), '=']
  | a :: b :: c :: rest =>
    b64Char (a >>> 2) :: b64Char (((a % 4) <<< 4) ||| (b >>> 4))
      :: b64Char (((b % 16) <<< 2) ||| (c >>> 6)) :: b64Char (c % 64)
      :: b64Chars rest

/-- Embeds `base64.b64encode(...).decode()`. -/
def base64Encode (bs : List Nat) : String := ⟨b64Chars bs⟩

/-- UTF-8 bytes of one character (`str.encode()`). -/
def utf8Char (c : Char) : List Nat :=
  let n := c.toNat
  if n < 128 then [n]
  else if n < 2048 then [192 ||| (n >>> 6), 128 ||| (n % 64)]
  else if n < 65536 then
    [224 ||| (n >>> 12), 128 ||| ((n >>> 6) % 64), 128 ||| (n % 64)]
  else
    [240 ||| (n >>> 18), 128 ||| ((n >>> 12) % 64), 128 ||| ((n >>> 6) % 64),
     128 ||| (n % 64)]

/-- Embeds `str.encode()`: UTF-8 bytes of a string. -/
def utf8Bytes (s : String) : List Nat := (s.data.map utf8Char).flatten

end Crypto

/-- Embeds `str.startswith`, by code points. -/
def startswith (s p : String) : Bool := p.data.isPrefixOf s.data

/-- Python `s[n:]`, by code points. -/
def strDrop (s : String) (n : Nat) : String := ⟨s.data.drop n⟩

/-- Embeds `app/models.py` `PaymentWebhook` (the parsed payload; `amount: float`
and the optional timestamp never enter the processing logic). -/
structure PaymentWebhook where
  event_type : String
  order_id : Int
  payment_id : String := "pay_123"
  amount : Rat
  timestamp : Option Nat := none
deriving DecidableEq, Repr

namespace WebhookHandler

/-- Embeds `WebhookHandler.verify_signature`: hex HMAC, `sha256=` stripped only
if present, `hmac.compare_digest` as string equality. -/
def verify_signature (webhook_secret : String) (payload : List Nat)
    (signature : String) : Bool :=
  let expected := Crypto.hexDigest
    (Crypto.hmacSha256 (Crypto.utf8Bytes webhook_secret) payload)
  let sig :=
    if startswith signature "sha256=" then strDrop signature 7 else signature
  expected == sig

/-- The dedup key `f"{event_type}_{payment_id}_{order_id}"`. -/
def eventId (w : PaymentWebhook) : String :=
  w.event_type ++ "_" ++ w.payment_id ++ "_" ++ toString w.order_id

/-- The `WebhookHandler` state seen by `process_payment_webhook` once the
signature has been verified and the payload parsed: the `processed_events`
set and the shared stores. -/
structure WebhookState where
  processed : List String
  store : MemoryStore
deriving DecidableEq, Repr

/-- The value `process_payment_webhook` produces: one of its returned
dicts, or a raised `HTTPException`. -/
inductive WebhookResult where
  | processed (order_id : Int) (new_status : String)
  | ignored (reason : String)
  | httpError (e : HTTPException)
deriving DecidableEq, Repr

/-- Lines 61–95 of `app/webhooks.py` (after signature verification and
payload parsing): `is_replay` records the dedup key and answers whether it
was already present; a `payment.succeeded` event moves a `PENDING` order to
`PAID` through `OrderCRUD.update_order`. -/
def process_payment_webhook (w : PaymentWebhook) (st : WebhookState) :
    WebhookResult × WebhookState :=
  if st.processed.contains (eventId w) then
    (.ignored "duplicate_event", st)
  else
    let st := { st with processed := st.processed ++ [eventId w] }
    if w.event_type == "payment.succeeded" then
      match OrderCRUD.get_order w.order_id st.store with
      | .error e => (.httpError e, st)
      | .ok order =>
        if order.status != .PENDING then
          (.ignored ("Order status is " ++ order.status.value
            ++ ", expected PENDING"), st)
        else
          match OrderCRUD.update_order w.order_id ⟨some .PAID⟩ st.store with
          | .error e => (.httpError e, st)
          | .ok (_, s') => (.processed w.order_id "PAID", { st with store := s' })
    else
      (.ignored ("Unhandled event type: " ++ w.event_type), st)

end WebhookHandler

/-- Embeds `app/main.py` `verify_webhook_signature`: requires the `sha256=`
prefix, compares against the base64 HMAC digest. -/
def verify_webhook_signature (signature : String) (payload : List Nat)
    (secret : String) : Bool :=
  if !startswith signature "sha256=" then
    false
  else
    let expected_signature_b64 := Crypto.base64Encode
      (Crypto.hmacSha256 (Crypto.utf8Bytes secret) payload)
    expected_signature_b64 == strDrop signature 7

/-! ### Derived notions the claims speak about -/

/-- The statuses `{PENDING, PAID, SHIPPED}` whose orders hold reserved
stock. -/
def liveStatus : OrderStatus → Bool
  | .CANCELED => false
  | _ => true

/-- The quantity an order reserves against product `pid`. -/
def orderContrib (pid : Int) (o : Order) : Int :=
  if o.product_id = pid ∧ liveStatus o.status = true then o.quantity else 0

/-- Total quantity reserved against product `pid` by orders in
`{PENDING, PAID, SHIPPED}`. -/
def reservedQty (pid : Int) (orders : List Order) : Int :=
  (orders.map (orderContrib pid)).sum

/-- The live stock of product `pid` (0 if absent). -/
def stockOf (s : MemoryStore) (pid : Int) : Int :=
  match s.products.find? (fun p => p.id == pid) with
  | some p => p.stock
  | none => 0

/-- Live stock plus reserved quantities: the conserved amount of claim C1. -/
def holding (s : MemoryStore) (pid : Int) : Int :=
  stockOf s pid + reservedQty pid s.orders

/-- One external call into the crud module. -/
inductive CrudOp where
  | createProduct (pd : ProductCreate)
  | updateProduct (pid : Int) (pd : ProductUpdate)
  | deleteProduct (pid : Int)
  | createOrder (oc : OrderCreate)
  | updateOrder (oid : Int) (ou : OrderUpdate)
  | cancelOrder (oid : Int)
  | deleteOrder (oid : Int)
deriving DecidableEq, Repr

/-- Run one call; a raised `HTTPException` leaves the store untouched. -/
def applyCrud (s : MemoryStore) : CrudOp → MemoryStore
  | .createProduct pd =>
    match ProductCRUD.create_product pd s with
    | .ok (_, s') => s'
    | .error _ => s
  | .updateProduct pid pd =>
    match ProductCRUD.update_product pid pd s with
    | .ok (_, s') => s'
    | .error _ => s
  | .deleteProduct pid =>
    match ProductCRUD.delete_product pid s with
    | .ok (_, s') => s'
    | .error _ => s
  | .createOrder oc =>
    match OrderCRUD.create_order oc s with
    | .ok (_, s') => s'
    | .error _ => s
  | .updateOrder oid ou =>
    match OrderCRUD.update_order oid ou s with
    | .ok (_, s') => s'
    | .error _ => s
  | .cancelOrder oid =>
    match OrderCRUD.cancel_order oid s with
    | .ok (_, s') => s'
    | .error _ => s
  | .deleteOrder oid =>
    match OrderCRUD.delete_order oid s with
    | .ok (_, s') => s'
    | .error _ => s

/-- Run a sequence of calls. -/
def runOps (s : MemoryStore) (ops : List CrudOp) : MemoryStore :=
  ops.foldl applyCrud s

/-- Well-formedness the id counters guarantee: every stored id was
allocated below the current counter. -/
def WF (s : MemoryStore) : Prop :=
  (∀ o ∈ s.orders, o.id < s.order_counter) ∧
    (∀ p ∈ s.products, p.id < s.product_counter)

/-- The Order Service operations of claim C1, except the status update to
`CANCELED` (order creation carries the default `PENDING` status, as every
caller in the repository does). -/
def stockConservingOp : CrudOp → Bool
  | .createOrder oc => oc.status == .PENDING
  | .updateOrder _ ou => ou.status != some .CANCELED
  | .cancelOrder _ => true
  | _ => false

/-- Referential intactness: every `PENDING`/`PAID` order points at a stored
product. -/
def refIntact (s : MemoryStore) : Prop :=
  ∀ o ∈ s.orders, (o.status = .PENDING ∨ o.status = .PAID) →
    ∃ p ∈ s.products, p.id = o.product_id

/-! ### Concrete stores for counterexamples and witnesses -/

/-- The demo product, with the given stock. -/
def widget (stock : Int) : Product :=
  { id := 1, sku := "A1", name := "Widget", price := 10, stock := stock }

/-- A demo order of quantity 3 for product 1, in the given status. -/
def demoOrder (status : OrderStatus) : Order :=
  { id := 1, product_id := 1, quantity := 3, status := status,
    created_at := 0 }

/-- One product (id 1, stock 5), no orders. -/
def demoStore : MemoryStore :=
  { products := [widget 5], orders := [], product_counter := 2,
    order_counter := 1, clock := 0 }

/-- One product (id 1, stock 2) and one `PENDING` order (id 1, qty 3). -/
def demoStore2 : MemoryStore :=
  { products := [widget 2], orders := [demoOrder .PENDING],
    product_counter := 2, order_counter := 2, clock := 1 }

/-- One product (id 1, stock 2) and one `SHIPPED` order (id 1, qty 3). -/
def demoShipped : MemoryStore :=
  { products := [widget 2], orders := [demoOrder .SHIPPED],
    product_counter := 2, order_counter := 2, clock := 1 }

/-! ### Helper lemmas about the dict model -/

theorem updateById_cons_pos {key : α → Int} {k : Int} {f : α → α} {x : α}
    {xs : List α} (h : key x = k) :
    updateById key k f (x :: xs) = f x :: xs := by
  simp [updateById, h]

theorem updateById_cons_neg {key : α → Int} {k : Int} {f : α → α} {x : α}
    {xs : List α} (h : ¬key x = k) :
    updateById key k f (x :: xs) = x :: updateById key k f xs := by
  simp [updateById, h]

/-- A successful first-match lookup splits the list; `updateById` replaces
exactly the found element. -/
theorem find?_eq_some_split {key : α → Int} {k : Int} {l : List α} {o : α}
    (h : l.find? (fun x => key x == k) = some o) :
    ∃ l1 l2, l = l1 ++ o :: l2 ∧ key o = k ∧ (∀ x ∈ l1, key x ≠ k) ∧
      ∀ f, updateById key k f l = l1 ++ f o :: l2 := by
  induction l with
  | nil => simp at h
  | cons x xs ih =>
    by_cases hx : key x = k
    · rw [List.find?_cons_of_pos _ (by simp [hx])] at h
      obtain rfl : x = o := by simpa using h
      exact ⟨[], xs, by simp, hx, by simp, fun f => updateById_cons_pos hx⟩
    · rw [List.find?_cons_of_neg _ (by simp [hx])] at h
      obtain ⟨l1, l2, hl, hko, hl1, hupd⟩ := ih h
      refine ⟨x :: l1, l2, by simp [hl], hko, ?_, fun f => ?_⟩
      · intro y hy
        rcases List.mem_cons.1 hy with rfl | hy'
        · exact hx
        · exact hl1 y hy'
      · rw [updateById_cons_neg hx, hupd f]
        exact (List.cons_append x l1 (f o :: l2)).symm

/-- A failed lookup means `updateById` changes nothing. -/
theorem updateById_eq_of_find?_eq_none {key : α → Int} {k : Int}
    {l : List α} (h : l.find? (fun x => key x == k) = none) (f : α → α) :
    updateById key k f l = l := by
  induction l with
  | nil => rfl
  | cons x xs ih =>
    by_cases hx : key x = k
    · rw [List.find?_cons_of_pos _ (by simp [hx])] at h
      exact absurd h (by simp)
    · rw [List.find?_cons_of_neg _ (by simp [hx])] at h
      rw [updateById_cons_neg hx, ih h]

/-- Lookups for a different key do not see an update, provided the update
preserves keys. -/
theorem find?_updateById_of_ne {k k' : Int} (key : α → Int) (f : α → α)
    (hk : ∀ x, key (f x) = key x) (hne : k' ≠ k) (l : List α) :
    (updateById key k f l).find? (fun x => key x == k')
      = l.find? (fun x => key x == k') := by
  induction l with
  | nil => rfl
  | cons x xs ih =>
    by_cases hx : key x = k
    · rw [updateById_cons_pos hx]
      have h1 : ¬key (f x) = k' := by rw [hk x, hx]; exact fun h => hne h.symm
      have h2 : ¬key x = k' := by rw [hx]; exact fun h => hne h.symm
      rw [List.find?_cons_of_neg _ (by simp [h1]), List.find?_cons_of_neg _ (by simp [h2])]
    · rw [updateById_cons_neg hx]
      by_cases hx' : key x = k'
      · rw [List.find?_cons_of_pos _ (by simp [hx']), List.find?_cons_of_pos _ (by simp [hx'])]
      · rw [List.find?_cons_of_neg _ (by simp [hx']), List.find?_cons_of_neg _ (by simp [hx']), ih]

/-- First-match lookup over a split list whose left part has no match. -/
theorem find?_append_cons_of_forall_ne {key : α → Int} {k : Int} {o : α}
    {l1 : List α} (hl1 : ∀ x ∈ l1, key x ≠ k) (ho : key o = k) (l2 : List α) :
    (l1 ++ o :: l2).find? (fun x => key x == k) = some o := by
  induction l1 with
  | nil =>
    rw [List.nil_append]
    exact List.find?_cons_of_pos _ (by simp [ho])
  | cons y ys ih =>
    rw [List.cons_append,
      List.find?_cons_of_neg _ (by simp [hl1 y (List.mem_cons_self y ys)])]
    exact ih (fun x hx => hl1 x (List.mem_cons_of_mem y hx))

/-- A lookup after updating the found element returns its image. -/
theorem find?_updateById_self {key : α → Int} {k : Int} (f : α → α)
    {l : List α} {o : α}
    (hk : ∀ x, key (f x) = key x) (h : l.find? (fun x => key x == k) = some o) :
    (updateById key k f l).find? (fun x => key x == k) = some (f o) := by
  obtain ⟨l1, l2, _, hko, hl1, hupd⟩ := find?_eq_some_split h
  rw [hupd f]
  exact find?_append_cons_of_forall_ne hl1 (by rw [hk o, hko]) l2

/-- Updating the found element changes a mapped sum by exactly the change
of that element's image. -/
theorem sum_map_updateById {key : α → Int} {k : Int} {l : List α} {o : α}
    (g : α → Int) (f : α → α) (h : l.find? (fun x => key x == k) = some o) :
    ((updateById key k f l).map g).sum = (l.map g).sum - g o + g (f o) := by
  obtain ⟨l1, l2, hl, _, _, hupd⟩ := find?_eq_some_split h
  rw [hupd f, hl]
  simp [List.sum_append]
  ring

/-- Elements of an updated list come from the original list, possibly
through `f`. -/
theorem mem_updateById {key : α → Int} {k : Int} {f : α → α} {x : α}
    {l : List α} (h : x ∈ updateById key k f l) :
    x ∈ l ∨ ∃ y ∈ l, x = f y := by
  induction l with
  | nil => simp [updateById] at h
  | cons y ys ih =>
    by_cases hy : key y = k
    · rw [updateById_cons_pos hy] at h
      rcases List.mem_cons.1 h with rfl | h'
      · exact Or.inr ⟨y, List.mem_cons_self _ _, rfl⟩
      · exact Or.inl (List.mem_cons_of_mem _ h')
    · rw [updateById_cons_neg hy] at h
      rcases List.mem_cons.1 h with rfl | h'
      · exact Or.inl (List.mem_cons_self _ _)
      · rcases ih h' with h2 | ⟨z, hz, hz'⟩
        · exact Or.inl (List.mem_cons_of_mem _ h2)
        · exact Or.inr ⟨z, List.mem_cons_of_mem _ hz, hz'⟩

/-- An element whose key differs from the updated key survives unchanged. -/
theorem mem_updateById_of_key_ne {key : α → Int} {k : Int} {f : α → α}
    {x : α} {l : List α} (h : x ∈ l) (hne : key x ≠ k) :
    x ∈ updateById key k f l := by
  induction l with
  | nil => simp at h
  | cons y ys ih =>
    by_cases hy : key y = k
    · rw [updateById_cons_pos hy]
      rcases List.mem_cons.1 h with rfl | h'
      · exact absurd hy hne
      · exact List.mem_cons_of_mem _ h'
    · rw [updateById_cons_neg hy]
      rcases List.mem_cons.1 h with rfl | h'
      · exact List.mem_cons_self _ _
      · exact List.mem_cons_of_mem _ (ih h')

/-- A witness for key `t` survives an update at key `k` whenever the update
preserves the key of what it rewrites. -/
theorem exists_mem_updateById {key : α → Int} {k t : Int} {f : α → α}
    {l : List α} (hk : ∀ y, key y = k → key (f y) = key y)
    (h : ∃ x ∈ l, key x = t) : ∃ x ∈ updateById key k f l, key x = t := by
  induction l with
  | nil => simp at h
  | cons y ys ih =>
    obtain ⟨x, hx, hxt⟩ := h
    by_cases hy : key y = k
    · rw [updateById_cons_pos hy]
      rcases List.mem_cons.1 hx with rfl | hx'
      · exact ⟨f x, List.mem_cons_self _ _, by rw [hk x hy]; exact hxt⟩
      · exact ⟨x, List.mem_cons_of_mem _ hx', hxt⟩
    · rw [updateById_cons_neg hy]
      rcases List.mem_cons.1 hx with rfl | hx'
      · exact ⟨x, List.mem_cons_self _ _, hxt⟩
      · obtain ⟨z, hz, hzt⟩ := ih ⟨x, hx', hxt⟩
        exact ⟨z, List.mem_cons_of_mem _ hz, hzt⟩

theorem mem_eraseById_of_key_ne {key : α → Int} {k : Int} {x : α}
    {l : List α} (h : x ∈ l) (hne : key x ≠ k) : x ∈ eraseById key k l := by
  induction l with
  | nil => simp at h
  | cons y ys ih =>
    by_cases hy : key y = k
    · simp only [eraseById, if_pos hy]
      rcases List.mem_cons.1 h with rfl | h'
      · exact absurd hy hne
      · exact h'
    · simp only [eraseById, if_neg hy]
      rcases List.mem_cons.1 h with rfl | h'
      · exact List.mem_cons_self _ _
      · exact List.mem_cons_of_mem _ (ih h')

theorem mem_of_mem_eraseById {key : α → Int} {k : Int} {x : α} {l : List α}
    (h : x ∈ eraseById key k l) : x ∈ l := by
  induction l with
  | nil => simp [eraseById] at h
  | cons y ys ih =>
    by_cases hy : key y = k
    · simp only [eraseById, if_pos hy] at h
      exact List.mem_cons_of_mem _ h
    · simp only [eraseById, if_neg hy] at h
      rcases List.mem_cons.1 h with rfl | h'
      · exact List.mem_cons_self _ _
      · exact List.mem_cons_of_mem _ (ih h')

/-- Elements of `dictInsert` are the new value or old elements. -/
theorem mem_dictInsert {key : α → Int} {v x : α} {l : List α}
    (h : x ∈ dictInsert key v l) : x = v ∨ x ∈ l := by
  unfold dictInsert at h
  split at h
  · rcases mem_updateById h with h' | ⟨_, _, h'⟩
    · exact Or.inr h'
    · exact Or.inl h'
  · rcases List.mem_append.1 h with h' | h'
    · exact Or.inr h'
    · exact Or.inl (by simpa using h')

/-- The inserted value is always present afterwards. -/
theorem self_mem_dictInsert {key : α → Int} (v : α) (l : List α) :
    v ∈ dictInsert key v l := by
  unfold dictInsert
  split
  · rename_i hs
    rw [Option.isSome_iff_exists] at hs
    obtain ⟨o, ho⟩ := hs
    obtain ⟨l1, l2, _, _, _, hupd⟩ := find?_eq_some_split ho
    rw [hupd]
    simp
  · simp

/-- Old elements with a key other than the inserted one survive. -/
theorem mem_dictInsert_of_key_ne {key : α → Int} {v x : α} {l : List α}
    (h : x ∈ l) (hne : key x ≠ key v) : x ∈ dictInsert key v l := by
  unfold dictInsert
  split
  · exact mem_updateById_of_key_ne h hne
  · simp [h]

/-- Inserting a fresh key appends. -/
theorem dictInsert_eq_append {key : α → Int} {v : α} {l : List α}
    (h : ∀ x ∈ l, key x ≠ key v) : dictInsert key v l = l ++ [v] := by
  unfold dictInsert
  split
  · rename_i hs
    rw [Option.isSome_iff_exists] at hs
    obtain ⟨o, ho⟩ := hs
    have hmem := List.mem_of_find?_eq_some ho
    have := List.find?_some ho
    exact absurd (by simpa using this) (h o hmem)
  · rfl

/-! ### Success shapes of the crud operations -/

theorem get_product_ok {pid : Int} {s : MemoryStore} {p : Product} :
    ProductCRUD.get_product pid s = .ok p ↔
      s.products.find? (fun x => x.id == pid) = some p := by
  unfold ProductCRUD.get_product
  cases s.products.find? (fun x => x.id == pid) <;> simp

theorem get_order_ok {oid : Int} {s : MemoryStore} {o : Order} :
    OrderCRUD.get_order oid s = .ok o ↔
      s.orders.find? (fun x => x.id == oid) = some o := by
  unfold OrderCRUD.get_order
  cases s.orders.find? (fun x => x.id == oid) <;> simp

theorem create_product_ok {pd : ProductCreate} {s : MemoryStore}
    {p : Product} {s' : MemoryStore}
    (h : ProductCRUD.create_product pd s = .ok (p, s')) :
    p = { id := s.product_counter, sku := pd.sku, name := pd.name,
          price := pd.price, stock := pd.stock }
      ∧ s' = { s with
          products := dictInsert Product.id p s.products,
          product_counter := s.product_counter + 1 } := by
  unfold ProductCRUD.create_product at h
  split at h
  · exact absurd h (by simp)
  · obtain ⟨rfl, rfl⟩ : _ = p ∧ _ = s' := by simpa using h
    exact ⟨rfl, rfl⟩

theorem update_product_ok {pid : Int} {pd : ProductUpdate} {s : MemoryStore}
    {p' : Product} {s' : MemoryStore}
    (h : ProductCRUD.update_product pid pd s = .ok (p', s')) :
    ∃ product, s.products.find? (fun x => x.id == pid) = some product
      ∧ p' = ProductCRUD.applyProductUpdate pd product
      ∧ s' = { s with
          products := updateById Product.id pid (fun _ => p') s.products } := by
  unfold ProductCRUD.update_product at h
  cases hgp : ProductCRUD.get_product pid s with
  | error e => rw [hgp] at h; exact absurd h (by simp)
  | ok product =>
    rw [hgp] at h
    dsimp only at h
    split at h
    · exact absurd h (by simp)
    · obtain ⟨rfl, rfl⟩ : _ = p' ∧ _ = s' := by simpa using h
      exact ⟨product, get_product_ok.1 hgp, rfl, rfl⟩

theorem delete_product_ok {pid : Int} {s : MemoryStore} {b : Bool}
    {s' : MemoryStore} (h : ProductCRUD.delete_product pid s = .ok (b, s')) :
    (s.products.find? (fun x => x.id == pid)).isSome = true
      ∧ s.orders.any (fun o => o.product_id == pid
          && (o.status == .PENDING || o.status == .PAID)) = false
      ∧ s' = { s with products := eraseById Product.id pid s.products } := by
  unfold ProductCRUD.delete_product at h
  split at h
  · exact absurd h (by simp)
  · split at h
    · exact absurd h (by simp)
    · rename_i h1 h2
      injection h with h2
      injection h2 with hb hs
      subst hs
      exact ⟨by simpa using h1, by simpa using h2, rfl⟩

theorem create_order_ok {oc : OrderCreate} {s : MemoryStore} {o : Order}
    {s' : MemoryStore} (h : OrderCRUD.create_order oc s = .ok (o, s')) :
    ∃ product, s.products.find? (fun x => x.id == oc.product_id) = some product
      ∧ ¬product.stock < oc.quantity
      ∧ o = { id := s.order_counter, product_id := oc.product_id,
              quantity := oc.quantity, status := oc.status,
              created_at := s.clock }
      ∧ s' = { s with
          products := updateById Product.id oc.product_id
            (fun p => { p with stock := p.stock - oc.quantity }) s.products,
          orders := dictInsert Order.id o s.orders,
          order_counter := s.order_counter + 1,
          clock := s.clock + 1 } := by
  unfold OrderCRUD.create_order at h
  cases hgp : ProductCRUD.get_product oc.product_id s with
  | error e => rw [hgp] at h; exact absurd h (by simp)
  | ok product =>
    rw [hgp] at h
    dsimp only at h
    split at h
    · exact absurd h (by simp)
    · rename_i hq
      obtain ⟨rfl, rfl⟩ : _ = o ∧ _ = s' := by simpa using h
      exact ⟨product, get_product_ok.1 hgp, hq, rfl, rfl⟩

theorem update_order_none_ok {oid : Int} {s : MemoryStore} {o' : Order}
    {s' : MemoryStore} (h : OrderCRUD.update_order oid ⟨none⟩ s = .ok (o', s')) :
    s' = s := by
  unfold OrderCRUD.update_order at h
  cases hgo : OrderCRUD.get_order oid s with
  | error e => rw [hgo] at h; exact absurd h (by simp)
  | ok order =>
    rw [hgo] at h
    dsimp only at h
    obtain ⟨-, rfl⟩ : _ = o' ∧ _ = s' := by simpa using h
    rfl

theorem update_order_some_ok {oid : Int} {ns : OrderStatus} {s : MemoryStore}
    {o' : Order} {s' : MemoryStore}
    (h : OrderCRUD.update_order oid ⟨some ns⟩ s = .ok (o', s')) :
    ∃ order, s.orders.find? (fun x => x.id == oid) = some order
      ∧ OrderCRUD.validTransition order.status ns = true
      ∧ o' = { order with status := ns }
      ∧ s' = { s with
          orders := updateById Order.id oid (fun _ => o') s.orders } := by
  unfold OrderCRUD.update_order at h
  cases hgo : OrderCRUD.get_order oid s with
  | error e => rw [hgo] at h; exact absurd h (by simp)
  | ok order =>
    rw [hgo] at h
    dsimp only at h
    split at h
    · rename_i hv
      obtain ⟨rfl, rfl⟩ : _ = o' ∧ _ = s' := by simpa using h
      exact ⟨order, get_order_ok.1 hgo, hv, rfl, rfl⟩
    · exact absurd h (by simp)

theorem cancel_order_ok {oid : Int} {s : MemoryStore} {b : Bool}
    {s' : MemoryStore} (h : OrderCRUD.cancel_order oid s = .ok (b, s')) :
    ∃ order p, s.orders.find? (fun x => x.id == oid) = some order
      ∧ (order.status = .PENDING ∨ order.status = .PAID)
      ∧ s.products.find? (fun x => x.id == order.product_id) = some p
      ∧ s' = { s with
          products := updateById Product.id order.product_id
            (fun q => { q with stock := q.stock + order.quantity }) s.products,
          orders := updateById Order.id oid
            (fun o => { o with status := .CANCELED }) s.orders } := by
  unfold OrderCRUD.cancel_order at h
  cases hgo : OrderCRUD.get_order oid s with
  | error e => rw [hgo] at h; exact absurd h (by simp)
  | ok order =>
    rw [hgo] at h
    dsimp only at h
    split at h
    · exact absurd h (by simp)
    · rename_i hterm
      have hst : order.status = .PENDING ∨ order.status = .PAID := by
        cases hos : order.status <;> simp [hos] at hterm ⊢
      split at h
      · cases hgp : ProductCRUD.get_product order.product_id s with
        | error e => rw [hgp] at h; exact absurd h (by simp)
        | ok p =>
          rw [hgp] at h
          dsimp only at h
          injection h with h2
          injection h2 with hb hs
          subst hs
          exact ⟨order, p, get_order_ok.1 hgo, hst, get_product_ok.1 hgp, rfl⟩
      · rename_i hns
        rcases hst with hs' | hs' <;> simp [hs'] at hns

theorem delete_order_ok {oid : Int} {s : MemoryStore} {b : Bool}
    {s' : MemoryStore} (h : OrderCRUD.delete_order oid s = .ok (b, s')) :
    ∃ order, s.orders.find? (fun x => x.id == oid) = some order
      ∧ order.status = .CANCELED
      ∧ s' = { s with orders := eraseById Order.id oid s.orders } := by
  unfold OrderCRUD.delete_order at h
  cases hgo : OrderCRUD.get_order oid s with
  | error e => rw [hgo] at h; exact absurd h (by simp)
  | ok order =>
    rw [hgo] at h
    dsimp only at h
    split at h
    · exact absurd h (by simp)
    · rename_i hns
      injection h with h2
      injection h2 with hb hs
      subst hs
      exact ⟨order, get_order_ok.1 hgo, by simpa using hns, rfl⟩

end OrdersInventory


namespace OrdersInventory

/-! ### Stock conservation machinery -/

theorem reservedQty_append (pid : Int) (l1 l2 : List Order) :
    reservedQty pid (l1 ++ l2) = reservedQty pid l1 + reservedQty pid l2 := by
  simp [reservedQty]

/-- A valid transition starts from `PENDING` or `PAID`. -/
theorem validTransition_from {a b : OrderStatus}
    (h : OrderCRUD.validTransition a b = true) :
    a = .PENDING ∨ a = .PAID := by
  cases a <;> cases b <;> revert h <;> decide

theorem wf_applyCrud {s : MemoryStore} (op : CrudOp) (hwf : WF s) :
    WF (applyCrud s op) := by
  obtain ⟨hwo, hwp⟩ := hwf
  cases op with
  | createProduct pd =>
    cases hres : ProductCRUD.create_product pd s with
    | error e => simpa [applyCrud, hres] using ⟨hwo, hwp⟩
    | ok r =>
      obtain ⟨p, s'⟩ := r
      obtain ⟨hpdef, hs'⟩ := create_product_ok hres
      simp only [applyCrud, hres]
      subst hs'
      refine ⟨fun o ho => hwo o ho, fun x hx => ?_⟩
      rcases mem_dictInsert hx with rfl | hx'
      · rw [hpdef]; dsimp; omega
      · have := hwp x hx'; dsimp; omega
  | updateProduct pid pd =>
    cases hres : ProductCRUD.update_product pid pd s with
    | error e => simpa [applyCrud, hres] using ⟨hwo, hwp⟩
    | ok r =>
      obtain ⟨p', s'⟩ := r
      obtain ⟨product, hfind, hp', hs'⟩ := update_product_ok hres
      simp only [applyCrud, hres]
      subst hs'
      refine ⟨fun o ho => hwo o ho, fun x hx => ?_⟩
      rcases mem_updateById hx with hx' | ⟨y, hy, rfl⟩
      · exact hwp x hx'
      · dsimp only
        rw [hp']
        exact hwp product (List.mem_of_find?_eq_some hfind)
  | deleteProduct pid =>
    cases hres : ProductCRUD.delete_product pid s with
    | error e => simpa [applyCrud, hres] using ⟨hwo, hwp⟩
    | ok r =>
      obtain ⟨b, s'⟩ := r
      obtain ⟨-, -, hs'⟩ := delete_product_ok hres
      simp only [applyCrud, hres]
      subst hs'
      exact ⟨fun o ho => hwo o ho, fun x hx => hwp x (mem_of_mem_eraseById hx)⟩
  | createOrder oc =>
    cases hres : OrderCRUD.create_order oc s with
    | error e => simpa [applyCrud, hres] using ⟨hwo, hwp⟩
    | ok r =>
      obtain ⟨o, s'⟩ := r
      obtain ⟨product, hp, hq, ho, hs'⟩ := create_order_ok hres
      simp only [applyCrud, hres]
      subst hs'
      constructor
      · intro x hx
        rcases mem_dictInsert hx with rfl | hx'
        · rw [ho]; dsimp; omega
        · have := hwo x hx'; dsimp; omega
      · intro x hx
        rcases mem_updateById hx with hx' | ⟨y, hy, rfl⟩
        · exact hwp x hx'
        · dsimp
          exact hwp y hy
  | updateOrder oid ou =>
    obtain ⟨ost⟩ := ou
    cases ost with
    | none =>
      cases hres : OrderCRUD.update_order oid ⟨none⟩ s with
      | error e => simpa [applyCrud, hres] using ⟨hwo, hwp⟩
      | ok r =>
        obtain ⟨o', s'⟩ := r
        have hs' := update_order_none_ok hres
        simp only [applyCrud, hres]
        subst hs'
        exact ⟨hwo, hwp⟩
    | some ns =>
      cases hres : OrderCRUD.update_order oid ⟨some ns⟩ s with
      | error e => simpa [applyCrud, hres] using ⟨hwo, hwp⟩
      | ok r =>
        obtain ⟨o', s'⟩ := r
        obtain ⟨order, horder, hv, ho', hs'⟩ := update_order_some_ok hres
        simp only [applyCrud, hres]
        subst hs'
        refine ⟨fun x hx => ?_, fun x hx => hwp x hx⟩
        rcases mem_updateById hx with hx' | ⟨y, hy, rfl⟩
        · exact hwo x hx'
        · dsimp only
          rw [ho']
          exact hwo order (List.mem_of_find?_eq_some horder)
  | cancelOrder oid =>
    cases hres : OrderCRUD.cancel_order oid s with
    | error e => simpa [applyCrud, hres] using ⟨hwo, hwp⟩
    | ok r =>
      obtain ⟨b, s'⟩ := r
      obtain ⟨order, p, horder, hst, hp, hs'⟩ := cancel_order_ok hres
      simp only [applyCrud, hres]
      subst hs'
      constructor
      · intro x hx
        rcases mem_updateById hx with hx' | ⟨y, hy, rfl⟩
        · exact hwo x hx'
        · dsimp
          exact hwo y hy
      · intro x hx
        rcases mem_updateById hx with hx' | ⟨y, hy, rfl⟩
        · exact hwp x hx'
        · dsimp
          exact hwp y hy
  | deleteOrder oid =>
    cases hres : OrderCRUD.delete_order oid s with
    | error e => simpa [applyCrud, hres] using ⟨hwo, hwp⟩
    | ok r =>
      obtain ⟨b, s'⟩ := r
      obtain ⟨order, horder, hns, hs'⟩ := delete_order_ok hres
      simp only [applyCrud, hres]
      subst hs'
      exact ⟨fun x hx => hwo x (mem_of_mem_eraseById hx), fun x hx => hwp x hx⟩

end OrdersInventory

namespace OrdersInventory

/-- One stock-conserving step preserves `stock + reserved` for every
product. -/
theorem holding_applyCrud {s : MemoryStore} {op : CrudOp} (pid : Int)
    (hwf : WF s) (hop : stockConservingOp op = true) :
    holding (applyCrud s op) pid = holding s pid := by
  cases op with
  | createProduct pd => simp [stockConservingOp] at hop
  | updateProduct pid' pd => simp [stockConservingOp] at hop
  | deleteProduct pid' => simp [stockConservingOp] at hop
  | deleteOrder oid => simp [stockConservingOp] at hop
  | createOrder oc =>
    have hst : oc.status = .PENDING := by
      simpa [stockConservingOp] using hop
    cases hres : OrderCRUD.create_order oc s with
    | error e => simp [applyCrud, hres]
    | ok r =>
      obtain ⟨o, s'⟩ := r
      obtain ⟨product, hp, hq, ho, hs'⟩ := create_order_ok hres
      have hfresh : ∀ x ∈ s.orders, Order.id x ≠ Order.id o := by
        intro x hx
        rw [ho]
        have := hwf.1 x hx
        show x.id ≠ s.order_counter
        omega
      have horders : s'.orders = s.orders ++ [o] := by
        rw [hs']
        exact dictInsert_eq_append hfresh
      have hprods : s'.products = updateById Product.id oc.product_id
          (fun p => { p with stock := p.stock - oc.quantity }) s.products := by
        rw [hs']
      simp only [applyCrud, hres]
      unfold holding
      by_cases hpe : pid = oc.product_id
      · have hf := find?_updateById_self
          (fun p => { p with stock := p.stock - oc.quantity })
          (fun x => rfl) hp
        have h1 : stockOf s' pid = product.stock - oc.quantity := by
          unfold stockOf
          rw [hprods, hpe, hf]
        have h2 : stockOf s pid = product.stock := by
          unfold stockOf
          rw [hpe, hp]
        have h3 : reservedQty pid s'.orders
            = reservedQty pid s.orders + oc.quantity := by
          rw [horders, reservedQty_append]
          simp [reservedQty, orderContrib, ho, hst, liveStatus, hpe]
        rw [h1, h2, h3]
        ring
      · have hf := find?_updateById_of_ne Product.id
          (fun p => { p with stock := p.stock - oc.quantity })
          (fun x => rfl) hpe s.products
        have h1 : stockOf s' pid = stockOf s pid := by
          unfold stockOf
          rw [hprods, hf]
        have h3 : reservedQty pid s'.orders = reservedQty pid s.orders := by
          rw [horders, reservedQty_append]
          have hz : orderContrib pid o = 0 := by
            unfold orderContrib
            rw [ho]
            simp [Ne.symm hpe]
          simp [reservedQty, hz]
        rw [h1, h3]
  | updateOrder oid ou =>
    obtain ⟨ost⟩ := ou
    cases ost with
    | none =>
      cases hres : OrderCRUD.update_order oid ⟨none⟩ s with
      | error e => simp [applyCrud, hres]
      | ok r =>
        obtain ⟨o', s'⟩ := r
        have hs' := update_order_none_ok hres
        simp [applyCrud, hres, hs']
    | some ns =>
      have hns : ns ≠ .CANCELED := by
        simpa [stockConservingOp] using hop
      cases hres : OrderCRUD.update_order oid ⟨some ns⟩ s with
      | error e => simp [applyCrud, hres]
      | ok r =>
        obtain ⟨o', s'⟩ := r
        obtain ⟨order, horder, hv, ho', hs'⟩ := update_order_some_ok hres
        have hfrom := validTransition_from hv
        simp only [applyCrud, hres]
        have hprods : s'.products = s.products := by rw [hs']
        have horders : s'.orders
            = updateById Order.id oid (fun _ => o') s.orders := by
          rw [hs']
        have hsum := sum_map_updateById (orderContrib pid) (fun _ => o')
          horder
        have hcontrib : orderContrib pid o' = orderContrib pid order := by
          rw [ho']
          unfold orderContrib
          have hl1 : liveStatus ns = true := by
            cases ns <;> simp_all [liveStatus]
          have hl2 : liveStatus order.status = true := by
            rcases hfrom with h | h <;> simp [h, liveStatus]
          simp [hl1, hl2]
        unfold holding
        have h1 : stockOf s' pid = stockOf s pid := by
          unfold stockOf
          rw [hprods]
        have h3 : reservedQty pid s'.orders = reservedQty pid s.orders := by
          rw [horders]
          unfold reservedQty
          rw [hsum, hcontrib]
          ring
        rw [h1, h3]
  | cancelOrder oid =>
    cases hres : OrderCRUD.cancel_order oid s with
    | error e => simp [applyCrud, hres]
    | ok r =>
      obtain ⟨b, s'⟩ := r
      obtain ⟨order, p, horder, hst, hp, hs'⟩ := cancel_order_ok hres
      simp only [applyCrud, hres]
      have hprods : s'.products = updateById Product.id order.product_id
          (fun q => { q with stock := q.stock + order.quantity })
          s.products := by
        rw [hs']
      have horders : s'.orders = updateById Order.id oid
          (fun o => { o with status := .CANCELED }) s.orders := by
        rw [hs']
      have hsum := sum_map_updateById (orderContrib pid)
        (fun o => { o with status := .CANCELED }) horder
      have hznew : orderContrib pid { order with status := OrderStatus.CANCELED }
          = 0 := by
        unfold orderContrib
        simp [liveStatus]
      unfold holding
      by_cases hpe : pid = order.product_id
      · have hf := find?_updateById_self
          (fun q => { q with stock := q.stock + order.quantity })
          (fun x => rfl) hp
        have h1 : stockOf s' pid = p.stock + order.quantity := by
          unfold stockOf
          rw [hprods, hpe, hf]
        have h2 : stockOf s pid = p.stock := by
          unfold stockOf
          rw [hpe, hp]
        have hcold : orderContrib pid order = order.quantity := by
          unfold orderContrib
          rcases hst with h | h <;> simp [h, liveStatus, hpe]
        have h3 : reservedQty pid s'.orders
            = reservedQty pid s.orders - order.quantity := by
          rw [horders]
          unfold reservedQty
          rw [hsum, hznew, hcold]
          ring
        rw [h1, h2, h3]
        ring
      · have hf := find?_updateById_of_ne Product.id
          (fun q => { q with stock := q.stock + order.quantity })
          (fun x => rfl) hpe s.products
        have h1 : stockOf s' pid = stockOf s pid := by
          unfold stockOf
          rw [hprods, hf]
        have hcold : orderContrib pid order = 0 := by
          unfold orderContrib
          simp [Ne.symm hpe]
        have h3 : reservedQty pid s'.orders = reservedQty pid s.orders := by
          rw [horders]
          unfold reservedQty
          rw [hsum, hznew, hcold]
          ring
        rw [h1, h3]

/-- Stock conservation along any stock-conserving trace. -/
theorem holding_runOps {s : MemoryStore} {ops : List CrudOp} (pid : Int)
    (hwf : WF s) (hops : ∀ op ∈ ops, stockConservingOp op = true) :
    holding (runOps s ops) pid = holding s pid := by
  induction ops generalizing s with
  | nil => rfl
  | cons op rest ih =>
    have hstep : runOps s (op :: rest) = runOps (applyCrud s op) rest := by
      simp [runOps]
    rw [hstep,
      ih (wf_applyCrud op hwf) (fun o ho => hops o (List.mem_cons_of_mem _ ho)),
      holding_applyCrud pid hwf (hops op (List.mem_cons_self _ _))]

end OrdersInventory

namespace OrdersInventory

/-! ### Forward evaluation lemmas -/

theorem get_product_eval_none {pid : Int} {s : MemoryStore}
    (h : s.products.find? (fun x => x.id == pid) = none) :
    ProductCRUD.get_product pid s = .error ⟨404, "Product not found"⟩ := by
  unfold ProductCRUD.get_product
  rw [h]

theorem create_order_eval_insufficient {oc : OrderCreate} {s : MemoryStore}
    {p : Product}
    (hp : s.products.find? (fun x => x.id == oc.product_id) = some p)
    (hq : p.stock < oc.quantity) :
    OrderCRUD.create_order oc s = .error ⟨409,
      "Insufficient stock. Available: " ++ toString p.stock
        ++ ", Requested: " ++ toString oc.quantity⟩ := by
  unfold OrderCRUD.create_order
  rw [get_product_ok.2 hp]
  dsimp only
  rw [if_pos hq]

theorem create_order_eval_ok {oc : OrderCreate} {s : MemoryStore} {p : Product}
    (hp : s.products.find? (fun x => x.id == oc.product_id) = some p)
    (hq : ¬p.stock < oc.quantity) :
    OrderCRUD.create_order oc s = .ok
      ({ id := s.order_counter, product_id := oc.product_id,
         quantity := oc.quantity, status := oc.status,
         created_at := s.clock },
       { s with
         products := updateById Product.id oc.product_id
           (fun q => { q with stock := q.stock - oc.quantity }) s.products,
         orders := dictInsert Order.id
           { id := s.order_counter, product_id := oc.product_id,
             quantity := oc.quantity, status := oc.status,
             created_at := s.clock } s.orders,
         order_counter := s.order_counter + 1,
         clock := s.clock + 1 }) := by
  unfold OrderCRUD.create_order
  rw [get_product_ok.2 hp]
  dsimp only
  rw [if_neg hq]

theorem update_order_eval_invalid {oid : Int} {ns : OrderStatus}
    {s : MemoryStore} {o : Order}
    (ho : s.orders.find? (fun x => x.id == oid) = some o)
    (hv : OrderCRUD.validTransition o.status ns = false) :
    OrderCRUD.update_order oid ⟨some ns⟩ s = .error ⟨400,
      "Invalid status transition from " ++ o.status.value
        ++ " to " ++ ns.value⟩ := by
  unfold OrderCRUD.update_order
  rw [get_order_ok.2 ho]
  dsimp only
  rw [if_neg (by simp [hv])]

theorem update_order_eval_valid {oid : Int} {ns : OrderStatus}
    {s : MemoryStore} {o : Order}
    (ho : s.orders.find? (fun x => x.id == oid) = some o)
    (hv : OrderCRUD.validTransition o.status ns = true) :
    OrderCRUD.update_order oid ⟨some ns⟩ s = .ok
      ({ o with status := ns },
       { s with
         orders := updateById Order.id oid
           (fun _ => { o with status := ns }) s.orders }) := by
  unfold OrderCRUD.update_order
  rw [get_order_ok.2 ho]
  dsimp only
  rw [if_pos hv]

theorem cancel_order_eval {oid : Int} {s : MemoryStore} {o : Order}
    {p : Product}
    (ho : s.orders.find? (fun x => x.id == oid) = some o)
    (hst : o.status = .PENDING ∨ o.status = .PAID)
    (hp : s.products.find? (fun x => x.id == o.product_id) = some p) :
    OrderCRUD.cancel_order oid s = .ok (true,
      { s with
        products := updateById Product.id o.product_id
          (fun q => { q with stock := q.stock + o.quantity }) s.products,
        orders := updateById Order.id oid
          (fun x => { x with status := .CANCELED }) s.orders }) := by
  have h1 : (o.status == OrderStatus.SHIPPED
      || o.status == OrderStatus.CANCELED) = false := by
    rcases hst with h | h <;> rw [h] <;> rfl
  have h2 : (o.status != OrderStatus.SHIPPED) = true := by
    rcases hst with h | h <;> rw [h] <;> rfl
  unfold OrderCRUD.cancel_order
  rw [get_order_ok.2 ho]
  dsimp only
  rw [if_neg (show ¬((o.status == OrderStatus.SHIPPED
    || o.status == OrderStatus.CANCELED) = true) by simp [h1])]
  rw [if_pos h2]
  rw [get_product_ok.2 hp]

end OrdersInventory

namespace OrdersInventory


/-! ### Claim C1 -/

/-- C1 counterexample: the claim quantifies over all Order Service
operations, including `update_order`; starting from a product with stock 5
and no orders, `create_order(qty 3)` followed by
`update_order` to `CANCELED` — a transition the table allows — ends
with stock 2 and no live order, so `initial_stock = 5 ≠ 2 = current_stock
+ Σ(live quantities)`: `update_order` does not restore stock on
cancellation. -/
theorem stock_conservation_counterexample :
    stockOf demoStore 1 + reservedQty 1 demoStore.orders = 5
      ∧ stockOf (runOps demoStore
            [CrudOp.createOrder { product_id := 1, quantity := 3 },
             CrudOp.updateOrder 1 { status := some .CANCELED }]) 1
          + reservedQty 1 (runOps demoStore
            [CrudOp.createOrder { product_id := 1, quantity := 3 },
             CrudOp.updateOrder 1 { status := some .CANCELED }]).orders
        = 2 := by
  decide

/-- C1 (amended): for every sequence of Order Service operations built from
order creation (with its default `PENDING` status), status updates to a
status other than `CANCELED`, and cancellations through `cancel_order`,
`stock + Σ(quantity of orders in {PENDING, PAID, SHIPPED})` is conserved
for every product, over any well-formed store; no quantity is created or
destroyed.  (As stated the claim is false: a status update to `CANCELED`
through `update_order` drops the reservation without restoring stock — see
the counterexample.) -/
theorem stock_conservation (s : MemoryStore) (pid : Int) (ops : List CrudOp)
    (hwf : WF s) (hops : ∀ op ∈ ops, stockConservingOp op = true) :
    stockOf (runOps s ops) pid + reservedQty pid (runOps s ops).orders
      = stockOf s pid + reservedQty pid s.orders :=
  holding_runOps pid hwf hops

/-- Witness for C1: a concrete conserving trace (create then cancel) on
`demoStore`, hypotheses discharged by `decide`. -/
theorem stock_conservation_witness :
    WF demoStore
      ∧ stockOf (runOps demoStore
            [CrudOp.createOrder { product_id := 1, quantity := 3 },
             CrudOp.cancelOrder 1]) 1
          + reservedQty 1 (runOps demoStore
            [CrudOp.createOrder { product_id := 1, quantity := 3 },
             CrudOp.cancelOrder 1]).orders
        = stockOf demoStore 1 + reservedQty 1 demoStore.orders :=
  ⟨⟨by decide, by decide⟩,
    stock_conservation demoStore 1
      [CrudOp.createOrder { product_id := 1, quantity := 3 },
       CrudOp.cancelOrder 1]
      ⟨by decide, by decide⟩ (by decide)⟩

end OrdersInventory

namespace OrdersInventory

/-! ### Claim C2 -/

/-- C2: with the request carrying the model's default status, `create_order`
fails with the 409 insufficient-stock error carrying the available and
requested amounts exactly when the product's stock is below the requested
quantity (so it never succeeds then), and otherwise returns, in one step, a
state holding both mutations: the stock decremented by exactly the quantity
and the new `PENDING` order appended; no state with only one of the two
mutations is ever produced, and a raised error leaves the store untouched. -/
theorem create_order_no_oversell (s : MemoryStore) (pid qty : Int)
    (p : Product) (hwf : WF s)
    (hp : s.products.find? (fun x => x.id == pid) = some p) :
    (p.stock < qty →
      OrderCRUD.create_order { product_id := pid, quantity := qty } s
        = .error ⟨409, "Insufficient stock. Available: " ++ toString p.stock
            ++ ", Requested: " ++ toString qty⟩)
    ∧ (¬p.stock < qty →
      ∃ o s', OrderCRUD.create_order { product_id := pid, quantity := qty } s
          = .ok (o, s')
        ∧ o.status = .PENDING ∧ o.product_id = pid ∧ o.quantity = qty
        ∧ stockOf s' pid = stockOf s pid - qty
        ∧ s'.orders = s.orders ++ [o]) := by
  constructor
  · intro hlt
    exact create_order_eval_insufficient hp hlt
  · intro hge
    refine ⟨_, _, create_order_eval_ok hp hge, rfl, rfl, rfl, ?_, ?_⟩
    · show stockOf
        { s with
          products := updateById Product.id pid
            (fun q => { q with stock := q.stock - qty }) s.products,
          orders := dictInsert Order.id
            { id := s.order_counter, product_id := pid, quantity := qty,
              status := .PENDING, created_at := s.clock } s.orders,
          order_counter := s.order_counter + 1,
          clock := s.clock + 1 } pid = stockOf s pid - qty
      unfold stockOf
      dsimp only
      rw [find?_updateById_self (fun q => { q with stock := q.stock - qty })
        (fun x => rfl) hp, hp]
    · show (dictInsert Order.id
          { id := s.order_counter, product_id := pid, quantity := qty,
            status := OrderStatus.PENDING, created_at := s.clock } s.orders)
        = s.orders ++ [_]
      refine dictInsert_eq_append ?_
      intro x hx
      have := hwf.1 x hx
      show x.id ≠ s.order_counter
      omega

/-- Witness for C2: on `demoStore` (stock 5), ordering quantity 3 succeeds
with stock decremented to 2 and the `PENDING` order appended. -/
theorem create_order_no_oversell_witness :
    ∃ o s', OrderCRUD.create_order { product_id := 1, quantity := 3 }
        demoStore = .ok (o, s')
      ∧ o.status = .PENDING ∧ o.product_id = 1 ∧ o.quantity = 3
      ∧ stockOf s' 1 = stockOf demoStore 1 - 3
      ∧ s'.orders = demoStore.orders ++ [o] :=
  (create_order_no_oversell demoStore 1 3 (widget 5)
    ⟨by decide, by decide⟩ (by decide)).2 (by decide)

/-! ### Claim C3 -/

/-- C3: a status update through `update_order` is governed exactly by the
transition table `{PENDING→PAID, PENDING→CANCELED, PAID→SHIPPED,
PAID→CANCELED}`: an update to a status outside the table fails with the
400 invalid-transition error carrying the current and requested statuses,
one inside the table succeeds and sets the requested status, and from the
terminal statuses `SHIPPED` and `CANCELED` no status mutation ever
succeeds. -/
theorem update_order_transition_table (s : MemoryStore) (oid : Int)
    (ns : OrderStatus) (o : Order)
    (ho : s.orders.find? (fun x => x.id == oid) = some o) :
    (∀ a b, OrderCRUD.validTransition a b = true ↔
      (a, b) ∈ [(OrderStatus.PENDING, OrderStatus.PAID),
        (OrderStatus.PENDING, OrderStatus.CANCELED),
        (OrderStatus.PAID, OrderStatus.SHIPPED),
        (OrderStatus.PAID, OrderStatus.CANCELED)])
    ∧ (OrderCRUD.validTransition o.status ns = false →
      OrderCRUD.update_order oid ⟨some ns⟩ s = .error ⟨400,
        "Invalid status transition from " ++ o.status.value ++ " to "
          ++ ns.value⟩)
    ∧ (OrderCRUD.validTransition o.status ns = true →
      ∃ s', OrderCRUD.update_order oid ⟨some ns⟩ s
        = .ok ({ o with status := ns }, s'))
    ∧ ((o.status = .SHIPPED ∨ o.status = .CANCELED) →
      ∀ ns' r, OrderCRUD.update_order oid ⟨some ns'⟩ s ≠ .ok r) := by
  refine ⟨fun a b => by cases a <;> cases b <;> decide,
    fun hv => update_order_eval_invalid ho hv,
    fun hv => ⟨_, update_order_eval_valid ho hv⟩, fun hterm ns' r => ?_⟩
  have hv : OrderCRUD.validTransition o.status ns' = false := by
    rcases hterm with h | h <;> rw [h] <;> cases ns' <;> decide
  rw [update_order_eval_invalid ho hv]
  simp

/-- Witness for C3: on `demoShipped` the update `SHIPPED → PAID` fails with
the invalid-transition error. -/
theorem update_order_transition_table_witness :
    OrderCRUD.update_order 1 ⟨some OrderStatus.PAID⟩ demoShipped
      = .error ⟨400, "Invalid status transition from SHIPPED to PAID"⟩ :=
  (update_order_transition_table demoShipped 1 OrderStatus.PAID
    (demoOrder .SHIPPED) (by decide)).2.1 (by decide)

/-! ### Claim C4 -/

/-- C4 counterexample: on a store whose product has stock 2 and whose
order 1 (quantity 3) is `PENDING`, the status update to `CANCELED` through
`update_order` succeeds — the transition is legal — yet the stock stays 2
instead of becoming 2 + 3: this status update does not restore stock. -/
theorem cancel_restores_stock_counterexample :
    stockOf demoStore2 1 = 2
      ∧ (OrderCRUD.update_order 1 ⟨some OrderStatus.CANCELED⟩
            demoStore2).toOption.map
          (fun r => (r.1.status, stockOf r.2 1))
        = some (OrderStatus.CANCELED, 2) := by
  decide

/-- C4 (amended): the stock restoration on cancellation lives in
`cancel_order`, not in `update_order`: cancelling a `PENDING` or `PAID`
order through `cancel_order` succeeds, adds the order's quantity back to
the referenced product's stock, and sets the order's status to `CANCELED`.
(A status update to `CANCELED` through `update_order` performs no
restoration — see the counterexample.) -/
theorem cancel_order_restores_stock (s : MemoryStore) (oid : Int)
    (o : Order) (p : Product)
    (ho : s.orders.find? (fun x => x.id == oid) = some o)
    (hst : o.status = .PENDING ∨ o.status = .PAID)
    (hp : s.products.find? (fun x => x.id == o.product_id) = some p) :
    ∃ s', OrderCRUD.cancel_order oid s = .ok (true, s')
      ∧ stockOf s' o.product_id = stockOf s o.product_id + o.quantity
      ∧ s'.orders.find? (fun x => x.id == oid)
          = some { o with status := .CANCELED } := by
  refine ⟨_, cancel_order_eval ho hst hp, ?_, ?_⟩
  · unfold stockOf
    dsimp only
    rw [find?_updateById_self
      (fun q => { q with stock := q.stock + o.quantity })
      (fun x => rfl) hp, hp]
  · dsimp only
    exact find?_updateById_self _ (fun x => rfl) ho

/-- Witness for C4: cancelling the `PENDING` order of `demoStore2` brings
the stock from 2 back to 2 + 3. -/
theorem cancel_order_restores_stock_witness :
    ∃ s', OrderCRUD.cancel_order 1 demoStore2 = .ok (true, s')
      ∧ stockOf s' 1 = stockOf demoStore2 1 + 3
      ∧ s'.orders.find? (fun x => x.id == 1)
          = some { demoOrder .PENDING with status := .CANCELED } :=
  cancel_order_restores_stock demoStore2 1 (demoOrder .PENDING) (widget 2)
    (by decide) (by decide) (by decide)

end OrdersInventory

namespace OrdersInventory

/-! ### Claim C8 -/

/-- C8: `delete_product` fails with the 404 not-found error exactly when
the id is absent; when the product exists it fails with the 400 conflict
error if and only if some order referencing it is `PENDING` or `PAID`, and
succeeds — removing the product and touching no order — when every order
referencing it is `SHIPPED` or `CANCELED`. -/
theorem delete_product_policy (s : MemoryStore) (pid : Int) :
    (s.products.find? (fun x => x.id == pid) = none →
      ProductCRUD.delete_product pid s
        = .error ⟨404, "Product not found"⟩)
    ∧ (∀ p, s.products.find? (fun x => x.id == pid) = some p →
      (∃ o ∈ s.orders, o.product_id = pid
          ∧ (o.status = .PENDING ∨ o.status = .PAID)) →
      ProductCRUD.delete_product pid s
        = .error ⟨400, "Cannot delete product with pending or paid orders"⟩)
    ∧ (∀ p, s.products.find? (fun x => x.id == pid) = some p →
      (∀ o ∈ s.orders, o.product_id = pid →
          o.status = .SHIPPED ∨ o.status = .CANCELED) →
      ∃ s', ProductCRUD.delete_product pid s = .ok (true, s')
        ∧ s'.products = eraseById Product.id pid s.products
        ∧ s'.orders = s.orders) := by
  refine ⟨fun hnone => ?_, fun p hp hblock => ?_, fun p hp hterm => ?_⟩
  · unfold ProductCRUD.delete_product
    rw [if_pos (by simp [hnone])]
  · have hany : (s.orders.any (fun o => o.product_id == pid
        && (o.status == .PENDING || o.status == .PAID))) = true := by
      rw [List.any_eq_true]
      obtain ⟨o, ho, hopid, host⟩ := hblock
      exact ⟨o, ho, by rcases host with h | h <;> simp [hopid, h]⟩
    unfold ProductCRUD.delete_product
    rw [if_neg (by simp [hp]), if_pos hany]
  · have hany : (s.orders.any (fun o => o.product_id == pid
        && (o.status == .PENDING || o.status == .PAID))) = false := by
      rw [List.any_eq_false]
      intro o ho
      simp only [Bool.and_eq_true, beq_iff_eq, Bool.or_eq_true]
      rintro ⟨hopid, host⟩
      rcases hterm o ho hopid with h | h <;>
        rcases host with h' | h' <;> simp [h] at h'
    unfold ProductCRUD.delete_product
    rw [if_neg (by simp [hp]), if_neg (by simp [hany])]
    exact ⟨_, rfl, rfl, rfl⟩

/-- Witness for C8: on `demoShipped` (its only order is `SHIPPED`) the
deletion of product 1 succeeds and removes it. -/
theorem delete_product_policy_witness :
    ∃ s', ProductCRUD.delete_product 1 demoShipped = .ok (true, s')
      ∧ s'.products = eraseById Product.id 1 demoShipped.products
      ∧ s'.orders = demoShipped.orders :=
  (delete_product_policy demoShipped 1).2.2 (widget 2) (by decide)
    (by decide)

end OrdersInventory

namespace OrdersInventory

/-! ### Claim C10 -/

/-- No transition leads into `PENDING`. -/
theorem validTransition_to_ne_pending {a b : OrderStatus}
    (h : OrderCRUD.validTransition a b = true) : b ≠ .PENDING := by
  cases a <;> cases b <;> revert h <;> decide

/-- Only `PENDING` may move to `PAID`. -/
theorem validTransition_paid_from {a : OrderStatus}
    (h : OrderCRUD.validTransition a .PAID = true) : a = .PENDING := by
  cases a <;> revert h <;> decide

/-- Every crud operation preserves referential intactness. -/
theorem refIntact_step (s : MemoryStore) (op : CrudOp)
    (hI : refIntact s) : refIntact (applyCrud s op) := by
  cases op with
  | createProduct pd =>
    cases hres : ProductCRUD.create_product pd s with
    | error e => simpa [applyCrud, hres] using hI
    | ok r =>
      obtain ⟨p, s'⟩ := r
      obtain ⟨hpdef, hs'⟩ := create_product_ok hres
      simp only [applyCrud, hres]
      subst hs'
      intro o ho hst
      obtain ⟨p0, hp0, hpid⟩ := hI o ho hst
      by_cases heq : o.product_id = p.id
      · exact ⟨p, self_mem_dictInsert p _, heq.symm⟩
      · refine ⟨p0, mem_dictInsert_of_key_ne hp0 ?_, hpid⟩
        show p0.id ≠ p.id
        rw [hpid]
        exact heq
  | updateProduct pid pd =>
    cases hres : ProductCRUD.update_product pid pd s with
    | error e => simpa [applyCrud, hres] using hI
    | ok r =>
      obtain ⟨p', s'⟩ := r
      obtain ⟨product, hfind, hp', hs'⟩ := update_product_ok hres
      simp only [applyCrud, hres]
      subst hs'
      intro o ho hst
      obtain ⟨p0, hp0, hpid⟩ := hI o ho hst
      refine exists_mem_updateById (fun y hy => ?_) ⟨p0, hp0, hpid⟩
      rw [hp']
      show (ProductCRUD.applyProductUpdate pd product).id = y.id
      have hpidq : product.id = pid := by simpa using List.find?_some hfind
      show product.id = y.id
      rw [hpidq, hy]
  | deleteProduct pid =>
    cases hres : ProductCRUD.delete_product pid s with
    | error e => simpa [applyCrud, hres] using hI
    | ok r =>
      obtain ⟨b, s'⟩ := r
      obtain ⟨-, hany, hs'⟩ := delete_product_ok hres
      simp only [applyCrud, hres]
      subst hs'
      intro o ho hst
      obtain ⟨p0, hp0, hpid⟩ := hI o ho hst
      refine ⟨p0, mem_eraseById_of_key_ne hp0 ?_, hpid⟩
      show p0.id ≠ pid
      rw [hpid]
      have := List.any_eq_false.1 hany o ho
      simp only [Bool.and_eq_true, beq_iff_eq, Bool.or_eq_true] at this
      intro hpe
      apply this
      refine ⟨hpe, ?_⟩
      rcases hst with h | h <;> simp [h]
  | createOrder oc =>
    cases hres : OrderCRUD.create_order oc s with
    | error e => simpa [applyCrud, hres] using hI
    | ok r =>
      obtain ⟨o, s'⟩ := r
      obtain ⟨product, hp, hq, ho, hs'⟩ := create_order_ok hres
      simp only [applyCrud, hres]
      subst hs'
      intro o' ho' hst
      rcases mem_dictInsert ho' with rfl | ho''
      · refine exists_mem_updateById (fun y _ => rfl) ?_
        refine ⟨product, List.mem_of_find?_eq_some hp, ?_⟩
        have : product.id = oc.product_id := by
          simpa using List.find?_some hp
        rw [this, ho]
      · obtain ⟨p0, hp0, hpid⟩ := hI o' ho'' hst
        exact exists_mem_updateById (fun y _ => rfl) ⟨p0, hp0, hpid⟩
  | updateOrder oid ou =>
    obtain ⟨ost⟩ := ou
    cases ost with
    | none =>
      cases hres : OrderCRUD.update_order oid ⟨none⟩ s with
      | error e => simpa [applyCrud, hres] using hI
      | ok r =>
        obtain ⟨o', s'⟩ := r
        have hs' := update_order_none_ok hres
        simp only [applyCrud, hres]
        subst hs'
        exact hI
    | some ns =>
      cases hres : OrderCRUD.update_order oid ⟨some ns⟩ s with
      | error e => simpa [applyCrud, hres] using hI
      | ok r =>
        obtain ⟨o', s'⟩ := r
        obtain ⟨order, horder, hv, ho', hs'⟩ := update_order_some_ok hres
        simp only [applyCrud, hres]
        subst hs'
        intro x hx hst
        rcases mem_updateById hx with hx' | ⟨y, hy, rfl⟩
        · exact hI x hx' hst
        · have hxs : ns = .PENDING ∨ ns = .PAID := by
            rw [ho'] at hst
            exact hst
          have hns : ns = .PAID := by
            rcases hxs with h | h
            · exact absurd h (validTransition_to_ne_pending hv)
            · exact h
          have hord : order.status = .PENDING := by
            rw [hns] at hv
            exact validTransition_paid_from hv
          obtain ⟨p0, hp0, hpid⟩ :=
            hI order (List.mem_of_find?_eq_some horder) (Or.inl hord)
          refine ⟨p0, hp0, ?_⟩
          rw [hpid, ho']
  | cancelOrder oid =>
    cases hres : OrderCRUD.cancel_order oid s with
    | error e => simpa [applyCrud, hres] using hI
    | ok r =>
      obtain ⟨b, s'⟩ := r
      obtain ⟨order, p, horder, hst0, hp, hs'⟩ := cancel_order_ok hres
      simp only [applyCrud, hres]
      subst hs'
      intro x hx hst
      rcases mem_updateById hx with hx' | ⟨y, hy, rfl⟩
      · obtain ⟨p0, hp0, hpid⟩ := hI x hx' hst
        exact exists_mem_updateById (fun z _ => rfl) ⟨p0, hp0, hpid⟩
      · rcases hst with h | h <;> exact absurd h (by simp)
  | deleteOrder oid =>
    cases hres : OrderCRUD.delete_order oid s with
    | error e => simpa [applyCrud, hres] using hI
    | ok r =>
      obtain ⟨b, s'⟩ := r
      obtain ⟨order, horder, hns, hs'⟩ := delete_order_ok hres
      simp only [applyCrud, hres]
      subst hs'
      intro x hx hst
      exact hI x (mem_of_mem_eraseById hx) hst

/-- C10: every crud operation preserves the invariant that each `PENDING`
or `PAID` order references a product present in the product store
(creation requires the product, deletion is blocked by such orders, nothing
else removes products), and under that invariant `cancel_order` on a
`PENDING` or `PAID` order never fails — in particular its internal product
lookup always succeeds. -/
theorem orders_reference_live_products :
    (∀ s op, refIntact s → refIntact (applyCrud s op))
    ∧ (∀ s oid o, refIntact s →
        s.orders.find? (fun x => x.id == oid) = some o →
        (o.status = .PENDING ∨ o.status = .PAID) →
        ∃ s', OrderCRUD.cancel_order oid s = .ok (true, s')) := by
  refine ⟨refIntact_step, fun s oid o hI ho hst => ?_⟩
  obtain ⟨p0, hp0, hpid⟩ := hI o (List.mem_of_find?_eq_some ho) hst
  have hsome : (s.products.find? (fun x => x.id == o.product_id)).isSome
      = true := by
    rw [List.find?_isSome]
    exact ⟨p0, hp0, by simp [hpid]⟩
  obtain ⟨p, hp⟩ := Option.isSome_iff_exists.1 hsome
  exact ⟨_, cancel_order_eval ho hst hp⟩

/-- Witness for C10: one step (`delete_order` attempt on `demoStore2`)
preserves intactness of `demoStore2`, and its `PENDING` order can always
be cancelled. -/
theorem orders_reference_live_products_witness :
    refIntact demoStore2
      ∧ refIntact (applyCrud demoStore2 (CrudOp.deleteOrder 1))
      ∧ ∃ s', OrderCRUD.cancel_order 1 demoStore2 = .ok (true, s') := by
  have hI : refIntact demoStore2 := by
    intro o ho hst
    refine ⟨widget 2, by simp [demoStore2], ?_⟩
    simp only [demoStore2, List.mem_singleton] at ho
    rw [ho]
    rfl
  exact ⟨hI, orders_reference_live_products.1 demoStore2 _ hI,
    orders_reference_live_products.2 demoStore2 1 (demoOrder .PENDING) hI
      (by decide) (by decide)⟩

end OrdersInventory

namespace OrdersInventory

/-! ### Webhook processing lemmas -/

theorem contains_append_self (l : List String) (a : String) :
    (l ++ [a]).contains a = true := by
  simp

/-- A recorded key makes any delivery a duplicate, with no state change. -/
theorem process_duplicate {w : PaymentWebhook}
    {st : WebhookHandler.WebhookState}
    (h : st.processed.contains (WebhookHandler.eventId w) = true) :
    WebhookHandler.process_payment_webhook w st
      = (.ignored "duplicate_event", st) := by
  unfold WebhookHandler.process_payment_webhook
  rw [if_pos h]

/-- The dedup key is recorded at first sight, whatever the outcome. -/
theorem process_processed (w : PaymentWebhook)
    (st : WebhookHandler.WebhookState) :
    (WebhookHandler.process_payment_webhook w st).2.processed
      = if st.processed.contains (WebhookHandler.eventId w) = true
        then st.processed
        else st.processed ++ [WebhookHandler.eventId w] := by
  by_cases hc : st.processed.contains (WebhookHandler.eventId w) = true
  · rw [process_duplicate hc, if_pos hc]
  · rw [if_neg hc]
    unfold WebhookHandler.process_payment_webhook
    rw [if_neg hc]
    dsimp only
    by_cases he : (w.event_type == "payment.succeeded") = true
    · rw [if_pos he]
      cases hgo : OrderCRUD.get_order w.order_id st.store with
      | error e => rfl
      | ok order =>
        dsimp only
        by_cases hpend : (order.status != OrderStatus.PENDING) = true
        · rw [if_pos hpend]
        · rw [if_neg hpend]
          cases hu : OrderCRUD.update_order w.order_id ⟨some .PAID⟩
              st.store with
          | error e => rfl
          | ok r =>
            obtain ⟨o2, s2⟩ := r
            rfl
    · rw [if_neg he]

theorem process_eval_unhandled {w : PaymentWebhook}
    {st : WebhookHandler.WebhookState}
    (hdup : st.processed.contains (WebhookHandler.eventId w) = false)
    (he : (w.event_type == "payment.succeeded") = false) :
    WebhookHandler.process_payment_webhook w st
      = (.ignored ("Unhandled event type: " ++ w.event_type),
         { st with processed := st.processed
             ++ [WebhookHandler.eventId w] }) := by
  unfold WebhookHandler.process_payment_webhook
  rw [if_neg (by rw [hdup]; decide)]
  dsimp only
  rw [if_neg (by simp [he])]

theorem process_eval_wrong_status {w : PaymentWebhook}
    {st : WebhookHandler.WebhookState} {o : Order}
    (hdup : st.processed.contains (WebhookHandler.eventId w) = false)
    (he : w.event_type = "payment.succeeded")
    (ho : st.store.orders.find? (fun x => x.id == w.order_id) = some o)
    (hpend : o.status ≠ .PENDING) :
    WebhookHandler.process_payment_webhook w st
      = (.ignored ("Order status is " ++ o.status.value
           ++ ", expected PENDING"),
         { st with processed := st.processed
             ++ [WebhookHandler.eventId w] }) := by
  unfold WebhookHandler.process_payment_webhook
  rw [if_neg (by rw [hdup]; decide)]
  dsimp only
  rw [if_pos (by simp [he])]
  rw [show OrderCRUD.get_order w.order_id st.store = .ok o
    from get_order_ok.2 ho]
  dsimp only
  rw [if_pos (by simp [hpend])]

theorem process_eval_paid {w : PaymentWebhook}
    {st : WebhookHandler.WebhookState} {o : Order}
    (hdup : st.processed.contains (WebhookHandler.eventId w) = false)
    (he : w.event_type = "payment.succeeded")
    (ho : st.store.orders.find? (fun x => x.id == w.order_id) = some o)
    (hpend : o.status = .PENDING) :
    WebhookHandler.process_payment_webhook w st
      = (.processed w.order_id "PAID",
         { st with
           processed := st.processed ++ [WebhookHandler.eventId w],
           store := { st.store with
             orders := updateById Order.id w.order_id
               (fun _ => { o with status := .PAID }) st.store.orders } }) := by
  unfold WebhookHandler.process_payment_webhook
  rw [if_neg (by rw [hdup]; decide)]
  dsimp only
  rw [if_pos (by simp [he])]
  rw [show OrderCRUD.get_order w.order_id st.store = .ok o
    from get_order_ok.2 ho]
  dsimp only
  rw [if_neg (by simp [hpend])]
  rw [update_order_eval_valid ho (by rw [hpend]; decide)]

theorem process_eval_missing {w : PaymentWebhook}
    {st : WebhookHandler.WebhookState}
    (hdup : st.processed.contains (WebhookHandler.eventId w) = false)
    (he : w.event_type = "payment.succeeded")
    (ho : st.store.orders.find? (fun x => x.id == w.order_id) = none) :
    WebhookHandler.process_payment_webhook w st
      = (.httpError ⟨404, "Order not found"⟩,
         { st with processed := st.processed
             ++ [WebhookHandler.eventId w] }) := by
  unfold WebhookHandler.process_payment_webhook
  rw [if_neg (by rw [hdup]; decide)]
  dsimp only
  rw [if_pos (by simp [he])]
  rw [show OrderCRUD.get_order w.order_id st.store
      = .error ⟨404, "Order not found"⟩ by
    unfold OrderCRUD.get_order
    rw [ho]]

/-! ### Claim C5 -/

/-- C5: processing of verified, parsed events is deduplicated by the key
`(event_type, payment_id, order_id)`: after any delivery of an event, a
second delivery of the identical event returns `ignored/duplicate` and
changes nothing — neither the stores nor the dedup set — so the pair of
deliveries performs exactly the transitions of the first one alone. -/
theorem webhook_idempotent (st : WebhookHandler.WebhookState)
    (w : PaymentWebhook) :
    WebhookHandler.process_payment_webhook w
        (WebhookHandler.process_payment_webhook w st).2
      = (.ignored "duplicate_event",
         (WebhookHandler.process_payment_webhook w st).2) := by
  apply process_duplicate
  rw [process_processed]
  by_cases hc : st.processed.contains (WebhookHandler.eventId w) = true
  · rw [if_pos hc]
    exact hc
  · rw [if_neg hc]
    exact contains_append_self _ _

/-! ### Claim C6 -/

/-- C6: for a verified, parsed, non-duplicate `payment.succeeded` event,
the processor moves the referenced order to `PAID` only when its current
status is `PENDING`; any other current status yields an ignored result
carrying a reason — not an error — and leaves the store untouched; and any
other event type yields `ignored/unhandled` with no store change. -/
theorem webhook_paid_requires_pending (st : WebhookHandler.WebhookState)
    (w : PaymentWebhook) (o : Order)
    (hdup : st.processed.contains (WebhookHandler.eventId w) = false) :
    (w.event_type = "payment.succeeded" →
      st.store.orders.find? (fun x => x.id == w.order_id) = some o →
      ((o.status = .PENDING →
        (WebhookHandler.process_payment_webhook w st).1
            = .processed w.order_id "PAID"
          ∧ (WebhookHandler.process_payment_webhook w st).2.store.orders
              = updateById Order.id w.order_id
                  (fun _ => { o with status := .PAID }) st.store.orders
          ∧ (WebhookHandler.process_payment_webhook w st).2.store.products
              = st.store.products)
      ∧ (o.status ≠ .PENDING →
        (WebhookHandler.process_payment_webhook w st).1
            = .ignored ("Order status is " ++ o.status.value
                ++ ", expected PENDING")
          ∧ (WebhookHandler.process_payment_webhook w st).2.store
              = st.store)))
    ∧ (w.event_type ≠ "payment.succeeded" →
      (WebhookHandler.process_payment_webhook w st).1
          = .ignored ("Unhandled event type: " ++ w.event_type)
        ∧ (WebhookHandler.process_payment_webhook w st).2.store
            = st.store) := by
  refine ⟨fun he ho => ⟨fun hpend => ?_, fun hpend => ?_⟩, fun he => ?_⟩
  · rw [process_eval_paid hdup he ho hpend]
    exact ⟨rfl, rfl, rfl⟩
  · rw [process_eval_wrong_status hdup he ho hpend]
    exact ⟨rfl, rfl⟩
  · rw [process_eval_unhandled hdup (by simpa using he)]
    exact ⟨rfl, rfl⟩

/-! ### Claim C9 -/

/-- C9: the dedup key is recorded at first sight, before the outcome is
known: any first delivery of an event — also one that ends ignored
(unhandled type, order not `PENDING`) or raises the 404 for a missing
order — appends the key to the processed set, and every replay of that
event afterwards returns `ignored/duplicate` with no state change; a
failed delivery can never be successfully retried. -/
theorem webhook_key_recorded_at_first_sight
    (st : WebhookHandler.WebhookState) (w : PaymentWebhook)
    (hdup : st.processed.contains (WebhookHandler.eventId w) = false) :
    (WebhookHandler.process_payment_webhook w st).2.processed
        = st.processed ++ [WebhookHandler.eventId w]
      ∧ WebhookHandler.process_payment_webhook w
          (WebhookHandler.process_payment_webhook w st).2
        = (.ignored "duplicate_event",
           (WebhookHandler.process_payment_webhook w st).2) := by
  have h1 : (WebhookHandler.process_payment_webhook w st).2.processed
      = st.processed ++ [WebhookHandler.eventId w] := by
    rw [process_processed, if_neg (by rw [hdup]; decide)]
  refine ⟨h1, process_duplicate ?_⟩
  rw [h1]
  exact contains_append_self _ _

/-- Witness for C9: a `payment.succeeded` delivery for the missing order
99 fails with the 404, yet its key is recorded and the replay is a
duplicate. -/
theorem webhook_key_recorded_at_first_sight_witness :
    (WebhookHandler.process_payment_webhook
        { event_type := "payment.succeeded", order_id := 99,
          payment_id := "p1", amount := 1 }
        { processed := [], store := demoStore2 }).2.processed
      = [] ++ [WebhookHandler.eventId
          { event_type := "payment.succeeded", order_id := 99,
            payment_id := "p1", amount := 1 }] :=
  (webhook_key_recorded_at_first_sight
    { processed := [], store := demoStore2 }
    { event_type := "payment.succeeded", order_id := 99,
      payment_id := "p1", amount := 1 } (by decide)).1

/-- Witness for C6: on `demoStore2` (order 1 `PENDING`), a verified
`payment.succeeded` event for order 1 is processed and the order becomes
`PAID`. -/
theorem webhook_paid_requires_pending_witness :
    (WebhookHandler.process_payment_webhook
        { event_type := "payment.succeeded", order_id := 1,
          payment_id := "p1", amount := 1 }
        { processed := [], store := demoStore2 }).1
      = .processed 1 "PAID" :=
  ((webhook_paid_requires_pending
      { processed := [], store := demoStore2 }
      { event_type := "payment.succeeded", order_id := 1,
        payment_id := "p1", amount := 1 }
      (demoOrder .PENDING) (by decide)).1 rfl (by decide)).1 rfl |>.1

end OrdersInventory

namespace OrdersInventory

/-! ### Claim C7 -/

theorem startswith_iff {s p : String} :
    startswith s p = true ↔ ∃ t, p.data ++ t = s.data := by
  unfold startswith
  rw [ List.isPrefixOf_iff_prefix]
  exact Iff.rfl

theorem startswith_append_left (p x : String) :
    startswith (p ++ x) p = true := by
  rw [startswith_iff]
  exact ⟨x.data, (String.data_append p x).symm⟩

theorem strDrop_sha_append (x : String) :
    strDrop ("sha256=" ++ x) 7 = x := by
  apply String.ext
  show (("sha256=" ++ x).data).drop 7 = x.data
  rw [String.data_append]
  exact List.drop_left' (by decide)

theorem startswith_sha_decompose {s : String}
    (h : startswith s "sha256=" = true) :
    s = "sha256=" ++ strDrop s 7 := by
  obtain ⟨t, ht⟩ := startswith_iff.1 h
  apply String.ext
  rw [String.data_append]
  show s.data = "sha256=".data ++ (s.data.drop 7)
  rw [← ht, List.drop_left' (by decide)]

theorem hexChar_ne_s {n : Nat} (h : n < 16) : Crypto.hexChar n ≠ 's' := by
  interval_cases n <;> decide

/-- A hex digest never carries the `sha256=` prefix: its first character is
a hex digit, not `s`. -/
theorem hexDigest_not_sha (bs : List Nat) :
    startswith (Crypto.hexDigest bs) "sha256=" = false := by
  cases hsw : startswith (Crypto.hexDigest bs) "sha256=" with
  | false => rfl
  | true =>
    exfalso
    obtain ⟨t, ht⟩ := startswith_iff.1 hsw
    cases bs with
    | nil =>
      have hl := congrArg List.length ht
      rw [List.length_append] at hl
      have h7 : ("sha256=".data).length = 7 := rfl
      have h0 : ((Crypto.hexDigest ([] : List Nat)).data).length = 0 := rfl
      rw [h7, h0] at hl
      omega
    | cons b rest =>
      have hd : ("sha256=".data ++ t) = 's' :: ("ha256=".data ++ t) := rfl
      have hd2 : (Crypto.hexDigest (b :: rest)).data
          = Crypto.hexChar (b / 16 % 16) :: Crypto.hexChar (b % 16)
            :: ((rest.map Crypto.byteHex).flatten) := rfl
      rw [hd, hd2] at ht
      injection ht with h1 h2
      exact hexChar_ne_s (Nat.mod_lt _ (by decide)) h1.symm

set_option maxRecDepth 200000 in
/-- C7 counterexample: against `WebhookHandler.verify_signature` (the
webhook processor the routes mount), a header holding the bare hex HMAC
digest — no `sha256=` prefix — verifies successfully, so absence of the
prefix is not a verification failure there. -/
theorem verify_signature_counterexample :
    WebhookHandler.verify_signature "your-webhook-secret-key"
        (Crypto.utf8Bytes "abc")
        "96870cf33c8c9ba02ded4e3f592b7fe3662b4451ba3b8608764faffc4dc27dbb"
      = true
    ∧ startswith
        "96870cf33c8c9ba02ded4e3f592b7fe3662b4451ba3b8608764faffc4dc27dbb"
        "sha256=" = false := by
  constructor
  · decide
  · decide

/-- C7 (amended): `WebhookHandler.verify_signature` treats the `sha256=`
prefix as optional — it succeeds exactly when the header is the lowercase
hex HMAC-SHA256 digest of the raw payload under the shared secret, either
bare or carrying the prefix; `app/main.py`'s `verify_webhook_signature`
requires the prefix — it succeeds exactly when the header is `sha256=`
followed by the base64 digest, and any header lacking the prefix fails
immediately.  (`hmac.compare_digest` is modelled as string equality; its
constant-time execution is not expressible in this embedding.) -/
theorem verify_signature_characterization (secret : String)
    (payload : List Nat) (signature : String) :
    (WebhookHandler.verify_signature secret payload signature = true ↔
      (signature
          = Crypto.hexDigest
              (Crypto.hmacSha256 (Crypto.utf8Bytes secret) payload)
        ∨ signature
          = "sha256=" ++ Crypto.hexDigest
              (Crypto.hmacSha256 (Crypto.utf8Bytes secret) payload)))
    ∧ (verify_webhook_signature signature payload secret = true ↔
      signature
        = "sha256=" ++ Crypto.base64Encode
            (Crypto.hmacSha256 (Crypto.utf8Bytes secret) payload)) := by
  constructor
  · unfold WebhookHandler.verify_signature
    by_cases hsw : startswith signature "sha256=" = true
    · rw [if_pos hsw]
      simp only [beq_iff_eq]
      constructor
      · intro hdr
        right
        calc signature = "sha256=" ++ strDrop signature 7 :=
              startswith_sha_decompose hsw
          _ = "sha256=" ++ Crypto.hexDigest
                (Crypto.hmacSha256 (Crypto.utf8Bytes secret) payload) := by
              rw [← hdr]
      · rintro (rfl | hs)
        · rw [hexDigest_not_sha] at hsw
          exact absurd hsw (by decide)
        · rw [hs, strDrop_sha_append]
    · rw [if_neg hsw]
      simp only [beq_iff_eq]
      constructor
      · intro hdr
        exact Or.inl hdr.symm
      · rintro (rfl | hs)
        · rfl
        · exfalso
          apply hsw
          rw [hs]
          exact startswith_append_left _ _
  · unfold verify_webhook_signature
    by_cases hsw : startswith signature "sha256=" = true
    · rw [if_neg (by simp [hsw])]
      simp only [beq_iff_eq]
      constructor
      · intro hdr
        calc signature = "sha256=" ++ strDrop signature 7 :=
              startswith_sha_decompose hsw
          _ = "sha256=" ++ Crypto.base64Encode
                (Crypto.hmacSha256 (Crypto.utf8Bytes secret) payload) := by
              rw [← hdr]
      · intro hs
        rw [hs, strDrop_sha_append]
    · rw [if_pos (by simp [hsw])]
      constructor
      · intro hfalse
        exact absurd hfalse (by decide)
      · intro hs
        exfalso
        apply hsw
        rw [hs]
        exact startswith_append_left _ _

end OrdersInventory
